import Mathlib

/-!
Verification development for the generation pipeline of the ai-game-generator
repository: cache-key hashing, rate limiting, the job queue and worker loop,
the generation client's retry protocol, the orchestrator's call sequence, and
the cron endpoint authorization.  Each TypeScript function of the core is
shallowly embedded as an executable Lean definition; JavaScript machine
integers are modelled as `Nat`/`Int` with explicit `% 2^32` where the source
relies on 32-bit wrap-around, asynchronous effects are modelled by explicit
state passing and event traces, and thrown exceptions by `Except`.
-/

namespace GameGen

/-! ## JavaScript-level helpers -/

/-- Contiguous-sublist test: `needle` is a prefix of `hay` or of one of its
suffixes. -/
def hasInfix (needle : List Char) : List Char → Bool
  | [] => needle.isEmpty
  | c :: rest => needle.isPrefixOf (c :: rest) || hasInfix needle rest

/-- Model of the JavaScript `String.prototype.includes` check: `needle` occurs
as a contiguous substring of `hay`. -/
def containsSubstr (needle hay : String) : Bool :=
  hasInfix needle.toList hay.toList

/-- Truthiness of a JavaScript `string | null | undefined` value: `null`,
`undefined` and the empty string are falsy. -/
def jsTruthyStr : Option String → Bool
  | none => false
  | some s => s ≠ ""

/-- Model of `String.prototype.toLowerCase` (character-wise lowering). -/
def jsToLower (s : String) : String := String.mk (s.toList.map Char.toLower)

/-- Model of `String.prototype.trim`: whitespace stripped from both ends. -/
def jsTrim (s : String) : String :=
  String.mk (((s.toList.dropWhile Char.isWhitespace).reverse.dropWhile
    Char.isWhitespace).reverse)

/-- Decimal digit character for `d < 10`. -/
def digitChar (d : Nat) : Char := Char.ofNat (48 + d)

/-- Decimal digits of `n`, most significant first, in front of `acc`. -/
def natCharsAux (n : Nat) (acc : List Char) : List Char :=
  if n < 10 then digitChar n :: acc
  else natCharsAux (n / 10) (digitChar (n % 10) :: acc)
termination_by n
decreasing_by
  have : n / 10 < n := Nat.div_lt_self (by omega) (by omega)
  omega

/-- Decimal rendering of a natural number, as JavaScript renders a
non-negative integer-valued number. -/
def natChars (n : Nat) : List Char := natCharsAux n []

/-- Decimal rendering of a natural number as a `String`. -/
def natStr (n : Nat) : String := String.mk (natChars n)

/-! ## Cache keys (`src/unnamed/part_000`: `hashInput`, `generateCacheKey`)

`hashInput` iterates `hash = (hash << 5) - hash + byte; hash |= 0` over the
UTF-8 bytes of the input.  Both `<< 5` and `|0` reduce modulo `2^32`, so one
step is congruent to `31 * hash + byte (mod 2^32)`; we carry the hash as its
unsigned 32-bit representative.  The four bytes `(hash >>> 24) & 0xff`, …,
`hash & 0xff` are then base64url-encoded (4 bytes → 6 characters, padding
stripped), filtered to `[a-zA-Z0-9_-]` (a no-op on base64url output) and
truncated to 32 characters (a no-op on 6 characters). -/

/-- UTF-8 encoding of one character, as `TextEncoder.encode` produces it. -/
def utf8Bytes (c : Char) : List Nat :=
  let n := c.toNat
  if n < 128 then [n]
  else if n < 2048 then [192 + n / 64, 128 + n % 64]
  else if n < 65536 then [224 + n / 4096, 128 + (n / 64) % 64, 128 + n % 64]
  else [240 + n / 262144, 128 + (n / 4096) % 64, 128 + (n / 64) % 64, 128 + n % 64]

/-- UTF-8 bytes of a string (model of `new TextEncoder().encode(input)`). -/
def encodeUTF8 (s : String) : List Nat := s.toList.flatMap utf8Bytes

/-- One step of the 32-bit string hash: `(hash << 5) - hash + byte`, wrapped
to 32 bits by the source's `hash |= 0`. -/
def hashStep (h b : Nat) : Nat := (31 * h + b) % 4294967296

/-- The 32-bit hash of `hashInput`, as an unsigned value below `2^32`. -/
def hashInputU32 (input : String) : Nat :=
  (encodeUTF8 input).foldl hashStep 0

/-- Character `n ↦ alphabet[n]` of the base64url alphabet, `n < 64`. -/
def b64Char (n : Nat) : Char :=
  if n < 26 then Char.ofNat (65 + n)
  else if n < 52 then Char.ofNat (97 + (n - 26))
  else if n < 62 then Char.ofNat (48 + (n - 52))
  else if n = 62 then '-'
  else '_'

/-- Base64url encoding of four bytes: one full 3-byte group (4 characters)
plus one trailing byte (2 characters, `==` padding stripped). -/
def base64url4 (b0 b1 b2 b3 : Nat) : List Char :=
  [b64Char (b0 / 4), b64Char (b0 % 4 * 16 + b1 / 16),
   b64Char (b1 % 16 * 4 + b2 / 64), b64Char (b2 % 64),
   b64Char (b3 / 4), b64Char (b3 % 4 * 16)]

/-- Characters kept by the final `replace(/[^a-zA-Z0-9_-]/g, "")` filter. -/
def keyChar (c : Char) : Bool := c.isAlphanum || c = '_' || c = '-'

/-- Model of `hashInput`: hash, split into big-endian bytes, base64url
encoded, filtered to the key alphabet and truncated to 32 characters. -/
def hashInput (input : String) : String :=
  let h := hashInputU32 input
  let chars := base64url4 (h / 16777216 % 256) (h / 65536 % 256) (h / 256 % 256) (h % 256)
  String.mk ((chars.filter keyChar).take 32)

/-- Model of `generateCacheKey(prefix, input)`. -/
def generateCacheKey (pre input : String) : String := pre ++ hashInput input

/-! ## Rate limiter (`src/unnamed/part_000`: `checkRateLimit`)

The Upstash counter store is modelled as an association list from keys to
counter values; `redis.set` is modelled by consing (the lookup takes the
first, i.e. most recent, binding, which is observationally an overwrite).
Expiry bookkeeping is redis-internal: the claims concern calls within one
window, so the model never expires a counter, and `redis.ttl` is supplied as
an oracle `ttlOf`. -/

/-- First-match association lookup (model of a keyed store read). -/
def alookup {α : Type} (id : String) : List (String × α) → Option α
  | [] => none
  | (k, v) :: rest => if k = id then some v else alookup id rest

/-- Counter store of the rate limiter. -/
abbrev RateState : Type := List (String × Nat)

/-- Result shape of `checkRateLimit`: `{allowed, remaining, reset}`, with the
reset instant in milliseconds since the epoch. -/
structure RLResult where
  allowed : Bool
  remaining : Nat
  reset : Int
deriving DecidableEq, Repr

/-- TTL of rate-limit counters (`CACHE_TTL.RATE_LIMIT`), in seconds. -/
def rateLimitTTL : Nat := 3600

/-- Model of `checkRateLimit(identifier, limit)`.  A missing counter — or a
counter reading `0`, which the source's `!rawCurrent` truthiness test cannot
distinguish from a missing one — is created with value 1; a counter at or
above the limit rejects without incrementing; otherwise the counter is
incremented.  `Math.max(0, …)` on the remaining count coincides with
truncated `Nat` subtraction. -/
def checkRateLimit (now : Int) (ttlOf : String → Int) (identifier : String)
    (limit : Nat) (s : RateState) : RLResult × RateState :=
  let key := generateCacheKey "ratelimit:" identifier
  match alookup key s with
  | none =>
      (⟨true, limit - 1, now + rateLimitTTL * 1000⟩, (key, 1) :: s)
  | some 0 =>
      (⟨true, limit - 1, now + rateLimitTTL * 1000⟩, (key, 1) :: s)
  | some (current + 1) =>
      if current + 1 ≥ limit then
        (⟨false, 0, now + max 0 (ttlOf key) * 1000⟩, s)
      else
        (⟨true, limit - (current + 2), now + max 0 (ttlOf key) * 1000⟩,
          (key, current + 2) :: s)

/-- State after `k` sequential `checkRateLimit` calls for one identity. -/
def rateCalls (now : Int) (ttlOf : String → Int) (identifier : String)
    (limit : Nat) (s : RateState) : Nat → RateState
  | 0 => s
  | k + 1 => (checkRateLimit now ttlOf identifier limit
      (rateCalls now ttlOf identifier limit s k)).2

/-! ## Job queue (`src/unnamed/part_004`)

The queue couples a Prisma `generationJob` table (modelled as an association
list from job ids to records), a Redis sorted set `queue:generation` holding
serialized job payloads scored by priority (modelled as a list of
score/member pairs kept sorted by ascending score; the serialized member
round-trips through `JSON.stringify`/`JSON.parse`, so it is carried as the
structured value), and a Redis set `queue:processing` of in-flight ids.
`prisma.create`'s id assignment is modelled by a fresh-id counter, and the
clock by an explicit `now` field (milliseconds). -/

/-- Prisma `JobStatus` enum. -/
inductive JobStatus where
  | PENDING | PROCESSING | COMPLETED | FAILED
deriving DecidableEq, Repr

/-- Persisted `generationJob` record, with the fields written by the queue
operations (the `config` JSON blob is carried opaquely). -/
structure JobRecord where
  prompt : String
  template : String
  config : Option String
  status : JobStatus
  priority : Nat
  createdAt : Int
  startedAt : Option Int := none
  completedAt : Option Int := none
  gameId : Option String := none
  errorMessage : Option String := none
deriving DecidableEq, Repr

/-- Payload submitted to `enqueueJob`. -/
structure JobPayload where
  prompt : String
  template : String
  userId : Option String := none
  priority : Option Nat := none
  config : Option String := none
deriving DecidableEq, Repr

/-- The `Job` value serialized into the sorted set. -/
structure QJob where
  id : String
  payload : JobPayload
  priority : Nat
  createdAt : Int
deriving DecidableEq, Repr

/-- Combined state of the job subsystem. -/
structure QueueState where
  records : List (String × JobRecord)
  queue : List (Nat × QJob)
  processing : List String
  nextId : Nat
  now : Int
deriving Repr

/-- Fresh record id for `prisma.generationJob.create`. -/
def freshId (n : Nat) : String := "job-" ++ natStr n

/-- Insertion into the sorted set: before the first strictly larger score.
A real Redis zset breaks score ties by member lexicographic order; priority
is the only documented ordering guarantee, so ties keep insertion order
here. -/
def zinsert (score : Nat) (m : QJob) : List (Nat × QJob) → List (Nat × QJob)
  | [] => [(score, m)]
  | (s1, m1) :: rest =>
      if score < s1 then (score, m) :: (s1, m1) :: rest
      else (s1, m1) :: zinsert score m rest

/-- Update of the record with the given id (model of
`prisma.generationJob.update({where: {id}})`; states built by these
operations hold at most one record per id). -/
def updateRecord (id : String) (f : JobRecord → JobRecord) :
    List (String × JobRecord) → List (String × JobRecord) :=
  List.map fun p => (p.1, if p.1 = id then f p.2 else p.2)

/-- Model of `enqueueJob(payload, priority)`: persist a PENDING record with
the lower-cased template, then insert the serialized job into the sorted set
scored by priority.  Returns the new job id. -/
def enqueueJob (payload : JobPayload) (priority : Nat) (s : QueueState) :
    String × QueueState :=
  let normalizedTemplate := jsToLower payload.template
  let id := freshId s.nextId
  let record : JobRecord :=
    { prompt := payload.prompt, template := normalizedTemplate,
      config := payload.config, status := .PENDING, priority := priority,
      createdAt := s.now }
  let jobPayload : JobPayload :=
    { payload with template := normalizedTemplate, priority := some priority }
  let job : QJob :=
    { id := id, payload := jobPayload, priority := priority, createdAt := s.now }
  (id, { s with records := (id, record) :: s.records,
                 queue := zinsert priority job s.queue,
                 nextId := s.nextId + 1 })

/-- Model of `dequeueJob()`: `zpopmin` the least-scored member, `sadd` its id
to the processing set, and mark the record PROCESSING with a start
timestamp.  An empty set yields `none` and leaves the state unchanged. -/
def dequeueJob (s : QueueState) : Option QJob × QueueState :=
  match s.queue with
  | [] => (none, s)
  | (_, job) :: rest =>
      (some job,
        { s with queue := rest,
                 processing :=
                   if job.id ∈ s.processing then s.processing
                   else job.id :: s.processing,
                 records := updateRecord job.id
                   (fun r => { r with status := .PROCESSING,
                                      startedAt := some s.now }) s.records })

/-- Model of `completeJob(jobId, gameId?, error?)`: `srem` the id from the
processing set and write the record. The status branch is the source's JS
truthiness test `error ? FAILED : COMPLETED`, so an `undefined` error and an
empty-string error both yield COMPLETED, while `errorMessage` stores
`error ?? null` (the empty string is kept as is). -/
def completeJob (jobId : String) (gameId : Option String)
    (error : Option String) (s : QueueState) : QueueState :=
  { s with processing := s.processing.filter (· ≠ jobId),
           records := updateRecord jobId
             (fun r =>
               { r with status := if jsTruthyStr error then .FAILED
                                  else .COMPLETED,
                        gameId := gameId,
                        errorMessage := error,
                        completedAt := some s.now }) s.records }

/-- Model of `getJobStatus(jobId)`. -/
def getJobStatus (jobId : String) (s : QueueState) : Option JobRecord :=
  alookup jobId s.records

/-- Staleness test used by `clearStaleJobs`: status PROCESSING and
`startedAt` strictly before `now - timeoutMs` (the Prisma `lt` filter skips
records whose `startedAt` is null). -/
def isStale (now timeoutMs : Int) (r : JobRecord) : Bool :=
  r.status = JobStatus.PROCESSING &&
    match r.startedAt with
    | some t => t < now - timeoutMs
    | none => false

/-- Model of `clearStaleJobs(timeoutMs)`: find the stale PROCESSING records,
complete each with error "Job timeout", and return how many were found. -/
def clearStaleJobs (timeoutMs : Int) (s : QueueState) : Nat × QueueState :=
  let staleJobs := s.records.filter fun p => isStale s.now timeoutMs p.2
  (staleJobs.length,
    staleJobs.foldl (fun st p => completeJob p.1 none (some "Job timeout") st) s)

/-- The record update a stale sweep performs on a swept job (the
`completeJob(id, undefined, "Job timeout")` write). -/
def failedStale (now : Int) (r : JobRecord) : JobRecord :=
  { r with status := .FAILED, gameId := none,
           errorMessage := some "Job timeout", completedAt := some now }

/-! ## Worker loop (`src/app/lib/worker.ts`: `processJob`)

The generation pipeline inside the `try` block — `generateGameCode`,
`generateGameAssetSet`, and, when the payload carries a user id,
`createGame` — is supplied as collaborator oracles; a thrown exception is an
`Except.error`.  `processJob` is a total Lean function, so the catch-all
conversion of pipeline failures into `completeJob(jobId, undefined, message)`
is the only error path: no exception can escape the per-job handler. -/

/-- A thrown JavaScript `Error` in the generation flow: an optional
HTTP-like `status` field and a message. -/
structure JsError where
  status : Option Nat := none
  message : String
deriving DecidableEq, Repr

/-- Collaborators of one worker pipeline run: the code-generation client,
the asset generator, and the game repository insert (returning the new game
id). -/
structure WorkerDeps where
  codeGen : String → String → Except JsError Unit
  assetGen : String → Except JsError Unit
  createGame : String → Except JsError String

/-- The `try`-block body of `processJob` for one dequeued job: generate code
and assets for the lower-cased template, then, only when the payload carries
a user id, persist a game and obtain its id. -/
def workerPipeline (deps : WorkerDeps) (job : QJob) : Except JsError (Option String) := do
  let tmpl := jsToLower job.payload.template
  let _ ← deps.codeGen job.payload.prompt tmpl
  let _ ← deps.assetGen tmpl
  match job.payload.userId with
  | some uid => do
      let gid ← deps.createGame uid
      pure (some gid)
  | none => pure none

/-- Model of `processJob()`: dequeue one job (returning `false` when the
queue is empty), run the pipeline, and complete the job — with the result
reference on success, or with the thrown error's message on failure. -/
def processJob (deps : WorkerDeps) (s : QueueState) : Bool × QueueState :=
  match dequeueJob s with
  | (none, s1) => (false, s1)
  | (some job, s1) =>
      match workerPipeline deps job with
      | .ok gid => (true, completeJob job.id gid none s1)
      | .error e => (true, completeJob job.id none (some e.message) s1)

/-! ## Generation client retry protocol (`src/unnamed/part_002`)

`generateGameCode` loops `attempt = 1 .. maxRetries`; each attempt makes one
chat-completion call for code (`requestGameCode`, with post-call validation:
non-empty content, a `Phaser` domain marker, and a 100-character minimum
length), one chat-completion call for metadata, and a schema validation.  A
caught error ends the loop immediately — wrapped by `enrichError` with the
attempt count — unless attempts remain and `isRetryableError` holds, in
which case the loop sleeps `2^attempt` seconds and retries.  The two
chat-completion calls are supplied as per-attempt oracles; the metadata
oracle abstracts `generateMetadata` (the second model call together with its
JSON parse and `MetadataSchema` check, whose failures reach the same catch
block as ordinary thrown errors). -/

/-- Retryability classification of `isRetryableError`: an HTTP 429 status,
or a message containing "rate limit", "timeout" or "overloaded" (all other
errors fail immediately without retry). -/
def isRetryableError (e : JsError) : Bool :=
  e.status = some 429 ||
    (let m := jsToLower e.message
     containsSubstr "rate limit" m || containsSubstr "timeout" m ||
       containsSubstr "overloaded" m)

/-- Splits at the first occurrence of `needle`: returns the part before it
and the part after it. -/
def splitOnce (needle : List Char) : List Char → Option (List Char × List Char)
  | [] => if needle.isEmpty then some ([], []) else none
  | c :: rest =>
      if needle.isPrefixOf (c :: rest) then
        some ([], (c :: rest).drop needle.length)
      else
        (splitOnce needle rest).map fun p => (c :: p.1, p.2)

/-- Case-insensitive match of a fenced-code-block language tag, returning the
remainder after it. -/
def stripTag (tag : String) (cs : List Char) : Option (List Char) :=
  if (cs.take tag.length).map Char.toLower = tag.toList then
    some (cs.drop tag.length)
  else none

/-- The optional `(?:javascript|js|typescript|ts)?` alternation, tried in the
regex's order. -/
def stripLang (cs : List Char) : List Char :=
  match stripTag "javascript" cs with
  | some rest => rest
  | none =>
      match stripTag "js" cs with
      | some rest => rest
      | none =>
          match stripTag "typescript" cs with
          | some rest => rest
          | none =>
              match stripTag "ts" cs with
              | some rest => rest
              | none => cs

/-- Whitespace class of the regex's `\s` (ASCII part). -/
def jsWhitespace (c : Char) : Bool :=
  c = ' ' || c = '\t' || c = '\n' || c = '\r' || c = '\x0b' || c = '\x0c'

/-- Model of `extractCodeBlock`, the regex
`/(?:triple-backtick)(?:javascript|js|typescript|ts)?\s*([^]*?)(?:triple-backtick)/i`:
the lazily captured body of the first fenced code block, trimmed; without a
complete fence the whole trimmed content is returned.  (Searching later
fence openers is unnecessary: any closer for a later opener would already
close the first one.) -/
def extractCodeBlock (content : String) : String :=
  let ticks := "```".toList
  match splitOnce ticks content.toList with
  | none => jsTrim content
  | some (_, afterOpen) =>
      let body := (stripLang afterOpen).dropWhile jsWhitespace
      match splitOnce ticks body with
      | some (captured, _) => jsTrim (String.mk captured)
      | none => jsTrim content

/-- Result of one chat-completion call: the optional message content
(`choices[0]?.message?.content`); token usage is float-based cost accounting
outside this embedding. -/
structure ChatOut where
  content : Option String
deriving DecidableEq, Repr

/-- Model of `requestGameCode` on attempt `k` against the per-attempt
chat-completion oracle `o1`: empty (or missing) trimmed content, a missing
`Phaser` reference in the extracted code, and code below 100 characters are
each thrown as content errors. -/
def requestGameCodeStep (o1 : Nat → Except JsError ChatOut) (k : Nat) :
    Except JsError String :=
  match o1 k with
  | .error e => .error e
  | .ok ch =>
      let mc := jsTrim (ch.content.getD "")
      if mc = "" then
        .error ⟨none, "OpenAI returned an empty response while generating game code."⟩
      else
        let code := extractCodeBlock mc
        if !containsSubstr "Phaser" code then
          .error ⟨none, "Generated code does not reference Phaser. Please refine the prompt and retry."⟩
        else if code.length < 100 then
          .error ⟨none, "Generated code is unexpectedly short. The prompt may need more detail."⟩
        else .ok code

/-- Structured metadata produced by `generateMetadata` (modelled post-schema;
its failure modes arrive through the oracle as thrown errors). -/
structure GameMetadata where
  title : String
  description : String
  difficulty : String
  estimatedPlayTime : String
  movement : String
deriving DecidableEq, Repr

/-- Model of `GameCodeSchema.parse` over the combined code and metadata: the
zod constraints that can fail on these values, each throwing the issue's
message (none of which matches the retryable classification, which is all
the retry loop inspects). -/
def gameCodeSchemaCheck (code : String) (md : GameMetadata) :
    Except JsError (String × GameMetadata) :=
  if code.length < 100 then
    .error ⟨none, "Generated code appears to be incomplete."⟩
  else if md.title = "" then
    .error ⟨none, "A descriptive title is required."⟩
  else if md.description = "" then
    .error ⟨none, "A concise description is required."⟩
  else if md.difficulty ≠ "easy" && md.difficulty ≠ "medium" && md.difficulty ≠ "hard" then
    .error ⟨none, "Difficulty must be easy, medium, or hard."⟩
  else if md.movement = "" then
    .error ⟨none, "Explain how the player moves."⟩
  else .ok (code, md)

/-- One attempt of the retry loop: the code call, then (only if it
succeeded) the metadata call, then the schema check.  Also counts how many
chat-completion calls the attempt made (code call, metadata call). -/
def genAttempt (o1 : Nat → Except JsError ChatOut)
    (o2 : Nat → Except JsError GameMetadata) (k : Nat) :
    Except JsError (String × GameMetadata) × Nat × Nat :=
  match requestGameCodeStep o1 k with
  | .error e => (.error e, 1, 0)
  | .ok code =>
      match o2 k with
      | .error e => (.error e, 1, 1)
      | .ok md => (gameCodeSchemaCheck code md, 1, 1)

/-- The wrapped exhaustion error of `enrichError`: message
`Failed to generate game code after {attempt}/{maxRetries} attempts.`, plus
` Reason: …` and the cause when the underlying value is an `Error`. -/
structure EnrichedError where
  message : String
  attempt : Nat
  maxRetries : Nat
  cause : Option JsError
deriving DecidableEq, Repr

/-- Model of `enrichError(error, attempt, maxRetries)`. -/
def enrichError (error : Option JsError) (attempt maxRetries : Nat) :
    EnrichedError :=
  let base := "Failed to generate game code after " ++ natStr attempt ++ "/" ++
    natStr maxRetries ++ " attempts."
  match error with
  | some e => ⟨base ++ " Reason: " ++ e.message, attempt, maxRetries, some e⟩
  | none => ⟨base, attempt, maxRetries, none⟩

/-- Observable outcome of one `generateGameCode` run: the returned value or
raised error, the number of code and metadata chat-completion calls, and the
backoff sleeps (milliseconds) in order. -/
structure RunOutcome where
  result : Except EnrichedError (String × GameMetadata)
  codeCalls : Nat
  metaCalls : Nat
  delays : List Nat
deriving Repr

/-- The `for attempt in 1..maxRetries` loop of `generateGameCode`, carrying
the running call counts, recorded backoff delays (`2^attempt` seconds), and
`lastError`.  When the loop exits without returning, the trailing
`enrichError(lastError, maxRetries, maxRetries)` throw is reached. -/
def genLoop (o1 : Nat → Except JsError ChatOut)
    (o2 : Nat → Except JsError GameMetadata) (maxRetries attempt cc mc : Nat)
    (ds : List Nat) (last : Option JsError) : RunOutcome :=
  if attempt > maxRetries then
    ⟨.error (enrichError last maxRetries maxRetries), cc, mc, ds⟩
  else
    match genAttempt o1 o2 attempt with
    | (.ok v, c, m) => ⟨.ok v, cc + c, mc + m, ds⟩
    | (.error e, c, m) =>
        if attempt ≥ maxRetries || !isRetryableError e then
          ⟨.error (enrichError (some e) attempt maxRetries), cc + c, mc + m, ds⟩
        else
          genLoop o1 o2 maxRetries (attempt + 1) (cc + c) (mc + m)
            (ds ++ [2 ^ attempt * 1000]) (some e)
termination_by maxRetries + 1 - attempt
decreasing_by omega

/-- Model of `generateGameCode(prompt, template, maxRetries)` for a template
of the supported enum (for which `SYSTEM_PROMPTS[template]` exists), run
against per-attempt collaborator oracles. -/
def generateGameCodeRun (o1 : Nat → Except JsError ChatOut)
    (o2 : Nat → Except JsError GameMetadata) (maxRetries : Nat) : RunOutcome :=
  genLoop o1 o2 maxRetries 1 0 0 [] none

/-! ## Orchestrator (`src/unnamed/part_005`: `OrchestratorService`)

`generateGame` is a sequence of awaited steps; the model runs it against
collaborator oracles and records an event trace: each `await f(...)`
contributes an invocation event and — only when the awaited promise
fulfills — a resolution event, after which control reaches the next
statement.  `validateRequest` is a separate public method of the service;
`generateGame` itself contains no call to it.  Request fields are carried as
the raw strings seen at the JavaScript boundary, so the runtime checks of
`validateRequest` are meaningful. -/

/-- A game-generation request (`GameGenerationRequest`). -/
structure GameGenerationRequest where
  gameType : String
  theme : String
  playerDescription : String
  difficulty : String
  mechanics : Option (List String) := none
  enemies : Option (List String) := none
  style : Option String := none
  userId : String
  userEmail : String
deriving DecidableEq, Repr

/-- Result of `validateRequest`. -/
structure ValidationResult where
  valid : Bool
  errors : List String
deriving DecidableEq, Repr

/-- Model of `OrchestratorService.validateRequest`: the error list is built
in the source's push order; `valid` iff it is empty.  The `!field` guards
are the falsy tests on the raw strings. -/
def validateRequest (request : GameGenerationRequest) : ValidationResult :=
  let errors :=
    (if request.gameType = "" then ["Game type is required"] else []) ++
    (if request.theme = "" || (jsTrim request.theme).length < 3 then
      ["Theme must be at least 3 characters"] else []) ++
    (if request.playerDescription = "" || (jsTrim request.playerDescription).length < 10 then
      ["Player description must be at least 10 characters"] else []) ++
    (if request.difficulty ≠ "easy" && request.difficulty ≠ "medium" &&
        request.difficulty ≠ "hard" then
      ["Difficulty must be easy, medium, or hard"] else []) ++
    (if request.userId = "" then ["User ID is required"] else [])
  ⟨errors.isEmpty, errors⟩

/-- Await events of one `generateGame` run, in program order. -/
inductive OrchEvent where
  | visualCallStart | visualResolved
  | codeCallStart | codeResolved
  | templateCallStart | templateResolved
  | assembleCallStart | assembleResolved
  | storeCallStart | storeResolved
deriving DecidableEq, Repr

/-- Sprite set returned by the visual collaborator. -/
structure SpriteSet where
  playerUrl : String
  backgroundUrl : String
  enemyUrls : List String
deriving DecidableEq, Repr

/-- Stored package descriptor returned by the storage collaborator. -/
structure PackageAsset where
  url : String
  size : Nat
deriving DecidableEq, Repr

/-- Collaborator oracles of one `generateGame` run (each may take the
request; their internals are external to the orchestrator). -/
structure OrchDeps where
  visual : GameGenerationRequest → Except JsError SpriteSet
  code : GameGenerationRequest → Except JsError Unit
  template : String → Except JsError Unit
  assemble : Except JsError Unit
  store : Except JsError PackageAsset

/-- Result descriptor of a successful `generateGame` run. -/
structure GameGenerationResult where
  jobId : String
  downloadUrl : String
  playerSprite : String
  background : String
  enemySprites : List String
  gameType : String
  theme : String
  packageSize : Nat
deriving DecidableEq, Repr

/-- JavaScript string conversion of a thrown `Error`, as interpolated by the
catch block's template literal. -/
def errToString (e : JsError) : String := "Error: " ++ e.message

/-- Model of `OrchestratorService.generateGame(request)`: the five awaited
steps in statement order — visual assets, game code, template load,
assembly, package storage — each starting only after the previous await
resolved; any rejection aborts the run, rethrown as
`Game generation failed: …`.  The returned trace lists the await events that
actually occurred. -/
def generateGameRun (deps : OrchDeps) (jobId : String)
    (request : GameGenerationRequest) :
    Except JsError GameGenerationResult × List OrchEvent :=
  match deps.visual request with
  | .error e =>
      (.error ⟨none, "Game generation failed: " ++ errToString e⟩,
        [.visualCallStart])
  | .ok sprites =>
      match deps.code request with
      | .error e =>
          (.error ⟨none, "Game generation failed: " ++ errToString e⟩,
            [.visualCallStart, .visualResolved, .codeCallStart])
      | .ok _ =>
          match deps.template request.gameType with
          | .error e =>
              (.error ⟨none, "Game generation failed: " ++ errToString e⟩,
                [.visualCallStart, .visualResolved, .codeCallStart,
                 .codeResolved, .templateCallStart])
          | .ok _ =>
              match deps.assemble with
              | .error e =>
                  (.error ⟨none, "Game generation failed: " ++ errToString e⟩,
                    [.visualCallStart, .visualResolved, .codeCallStart,
                     .codeResolved, .templateCallStart, .templateResolved,
                     .assembleCallStart])
              | .ok _ =>
                  match deps.store with
                  | .error e =>
                      (.error ⟨none, "Game generation failed: " ++ errToString e⟩,
                        [.visualCallStart, .visualResolved, .codeCallStart,
                         .codeResolved, .templateCallStart, .templateResolved,
                         .assembleCallStart, .assembleResolved, .storeCallStart])
                  | .ok pkg =>
                      (.ok { jobId := jobId, downloadUrl := pkg.url,
                             playerSprite := sprites.playerUrl,
                             background := sprites.backgroundUrl,
                             enemySprites := sprites.enemyUrls,
                             gameType := request.gameType,
                             theme := request.theme,
                             packageSize := pkg.size },
                        [.visualCallStart, .visualResolved, .codeCallStart,
                         .codeResolved, .templateCallStart, .templateResolved,
                         .assembleCallStart, .assembleResolved, .storeCallStart,
                         .storeResolved])

/-- Concurrency property named by the specification's Scenario D: the visual
and code generation calls are both issued before either of them is awaited
to resolution.  Stated over a trace: both invocation events occur, and each
strictly precedes every resolution event of the pair.  `List.indexOf`
returns the list's length for an absent event. -/
def generationCallsConcurrent (t : List OrchEvent) : Bool :=
  t.contains .visualCallStart && t.contains .codeCallStart &&
    decide (max (t.indexOf .visualCallStart) (t.indexOf .codeCallStart) <
      min (t.indexOf .visualResolved) (t.indexOf .codeResolved))

/-! ## Generation API route (`src/app/api/cache/route.ts`, POST handler of
`/api/generate/v2`)

The route parses the body against a zod schema, applies the rate limiter,
calls `orchestratorService.validateRequest`, and only then invokes
`generateGame`.  The model keeps the fields the route inspects on this path
(the optional `style`/`userEmail` fields only receive defaults and are
elided); the body is assumed to be valid JSON of the right shape, with zod's
checks on the modelled fields applied. -/

/-- Raw request payload of the generation route. -/
structure RoutePayload where
  gameType : String
  theme : String
  playerDescription : String
  difficulty : String
  userId : Option String := none
  userEmail : String := "anonymous@example.com"
deriving DecidableEq, Repr

/-- Model of the route's `GenerateRequestSchema` checks on the modelled
fields: `gameType`/`difficulty` enum membership and the `theme` and
`playerDescription` length bounds. -/
def schemaOk (p : RoutePayload) : Bool :=
  (p.gameType = "platformer" || p.gameType = "puzzle" || p.gameType = "shooter" ||
    p.gameType = "racing" || p.gameType = "custom") &&
  (3 ≤ p.theme.length && p.theme.length ≤ 200) &&
  (10 ≤ p.playerDescription.length && p.playerDescription.length ≤ 500) &&
  (p.difficulty = "easy" || p.difficulty = "medium" || p.difficulty = "hard")

/-- Observable outcome of one POST to the generation route: HTTP status, the
orchestrator await events that occurred (empty when `generateGame` was never
invoked), and the rate-limiter state after the request. -/
structure RouteOutcome where
  status : Nat
  events : List OrchEvent
  rate : RateState
deriving Repr

/-- Model of `isAIServiceError`, the route's 503-classification of thrown
errors. -/
def isAIServiceError (e : JsError) : Bool :=
  let m := jsToLower e.message
  containsSubstr "openai" m || containsSubstr "rate limit" m ||
    containsSubstr "timeout" m || containsSubstr "overloaded" m ||
    containsSubstr "dall-e" m || containsSubstr "gpt-4" m ||
    containsSubstr "failed to generate" m

/-- The orchestrator request the route builds from a payload:
`userId: payload.userId || requestId` and the defaulted email. -/
def routeRequest (p : RoutePayload) (requestId : String) : GameGenerationRequest :=
  { gameType := p.gameType, theme := p.theme,
    playerDescription := p.playerDescription, difficulty := p.difficulty,
    userId := if jsTruthyStr p.userId then p.userId.getD "" else requestId,
    userEmail := p.userEmail }

/-- The generation route after its rate-limit gate: `validateRequest` (400
when invalid), then `generateGame` (200 on success; 503 for
AI-service-classified failures, 500 otherwise). -/
def routePOSTtail (request : GameGenerationRequest) (rs1 : RateState)
    (deps : OrchDeps) (jobId : String) : RouteOutcome :=
  if !(validateRequest request).valid then ⟨400, [], rs1⟩
  else
    match generateGameRun deps jobId request with
    | (.ok _, tr) => ⟨200, tr, rs1⟩
    | (.error e, tr) => ⟨if isAIServiceError e then 503 else 500, tr, rs1⟩

/-- Model of the generation route's POST handler: schema parse (400 on
`ZodError`), rate limiting with limit 3 unless disabled (429 when denied),
then `routePOSTtail`. -/
def routePOST (p : RoutePayload) (requestId : String) (rateLimitDisabled : Bool)
    (now : Int) (ttlOf : String → Int) (rs : RateState) (deps : OrchDeps)
    (jobId : String) : RouteOutcome :=
  if !schemaOk p then ⟨400, [], rs⟩
  else
    let request := routeRequest p requestId
    if rateLimitDisabled then routePOSTtail request rs deps jobId
    else
      let res := checkRateLimit now ttlOf request.userId 3 rs
      if !res.1.allowed then ⟨429, [], res.2⟩
      else routePOSTtail request res.2 deps jobId

/-! ## Cron endpoints (`src/app/api/cron/worker/route.ts`,
`src/app/api/cron/cleanup/route.ts`)

Both GET handlers gate on
`!authHeader || !secret || authHeader !== "Bearer " + secret`, answering 401
without touching the queue; an authorized worker tick runs one
`processOneJob` (= `processJob`), and an authorized cleanup runs
`clearStaleJobs`. -/

/-- The shared bearer-token check of the cron routes: the request's
`authorization` header (absent ⇒ `null`) against `process.env.CRON_SECRET`
(unset ⇒ `undefined`). -/
def cronAuthorized (authHeader secret : Option String) : Bool :=
  jsTruthyStr authHeader && jsTruthyStr secret &&
    authHeader = some ("Bearer " ++ secret.getD "")

/-- Model of the worker cron GET handler: 401 and an untouched queue without
authorization; otherwise one worker tick, answering 200 with whether a job
was processed. -/
def cronWorkerGET (authHeader secret : Option String) (deps : WorkerDeps)
    (s : QueueState) : Nat × Option Bool × QueueState :=
  if !cronAuthorized authHeader secret then (401, none, s)
  else
    let (processed, s1) := processJob deps s
    (200, some processed, s1)

/-- Model of the cleanup cron GET handler: 401 and an untouched queue
without authorization; otherwise a stale sweep, answering 200 with the
cleared count. -/
def cronCleanupGET (authHeader secret : Option String) (timeoutMs : Int)
    (s : QueueState) : Nat × Option Nat × QueueState :=
  if !cronAuthorized authHeader secret then (401, none, s)
  else
    let (cleared, s1) := clearStaleJobs timeoutMs s
    (200, some cleared, s1)

/-! ## JSON serialization (`JSON.stringify` / `JSON.parse`)

`cacheGameCode` stores `JSON.stringify(gameData)` in Redis and
`getCachedGameCode` applies `JSON.parse` to what it reads back.  The
JSON-serializable value domain is modelled by the `Json` tree below (numbers
as integers: fractional JSON numbers are IEEE floats, outside this
embedding).  `stringify` follows `JSON.stringify`'s compact output — no
whitespace, strings escaped with `\"`, `\\`, the named control escapes and
lowercase `\u00XX` — and `parseJson` is a fuel-indexed recursive-descent
reader of the same grammar (whitespace skipping, fractional/exponent number
forms and surrogate-pair `\u` sequences are omitted: none occurs in the
stored strings, which are `stringify` images). -/

/-- JSON-serializable values; object members keep their order. -/
inductive Json where
  | null : Json
  | bool (b : Bool) : Json
  | num (n : Int) : Json
  | str (s : List Char) : Json
  | arr (xs : List Json) : Json
  | obj (kvs : List (List Char × Json)) : Json

/-- Lowercase hexadecimal digit character for `d < 16`. -/
def hexChar (d : Nat) : Char :=
  if d < 10 then digitChar d else Char.ofNat (97 + (d - 10))

/-- Escaping of one character inside a JSON string, as `JSON.stringify`
performs it. -/
def escapeChar (c : Char) : List Char :=
  if c = '"' then ['\\', '"']
  else if c = '\\' then ['\\', '\\']
  else if c = '\x08' then ['\\', 'b']
  else if c = '\t' then ['\\', 't']
  else if c = '\n' then ['\\', 'n']
  else if c = '\x0c' then ['\\', 'f']
  else if c = '\r' then ['\\', 'r']
  else if c.toNat < 32 then
    ['\\', 'u', '0', '0', hexChar (c.toNat / 16), hexChar (c.toNat % 16)]
  else [c]

/-- Escaped body of a JSON string. -/
def escBody (s : List Char) : List Char := s.flatMap escapeChar

/-- Decimal rendering of a JSON integer. -/
def intChars (n : Int) : List Char :=
  if n < 0 then '-' :: natChars n.natAbs else natChars n.toNat

/-- Characters of the `null` keyword. -/
def kwNull : List Char := ['n', 'u', 'l', 'l']

/-- Characters of the `true` keyword. -/
def kwTrue : List Char := ['t', 'r', 'u', 'e']

/-- Characters of the `false` keyword. -/
def kwFalse : List Char := ['f', 'a', 'l', 's', 'e']

mutual

/-- Compact rendering of a JSON value (`JSON.stringify`). -/
def strVal : Json → List Char
  | .null => kwNull
  | .bool b => if b then kwTrue else kwFalse
  | .num n => intChars n
  | .str s => '"' :: (escBody s ++ ['"'])
  | .arr [] => ['[', ']']
  | .arr (x :: xs) => '[' :: (strVal x ++ strArrTail xs)
  | .obj [] => ['\x7b', '\x7d']
  | .obj (kv :: kvs) => '\x7b' :: (strMember kv ++ strObjTail kvs)

/-- Rendering of the elements after the first, each preceded by a comma,
closed by `]`. -/
def strArrTail : List Json → List Char
  | [] => [']']
  | x :: xs => ',' :: (strVal x ++ strArrTail xs)

/-- Rendering of one object member `"key":value`. -/
def strMember : List Char × Json → List Char
  | (k, v) => '"' :: (escBody k ++ ['"', ':'] ++ strVal v)

/-- Rendering of the members after the first, each preceded by a comma,
closed by `}`. -/
def strObjTail : List (List Char × Json) → List Char
  | [] => ['\x7d']
  | kv :: kvs => ',' :: (strMember kv ++ strObjTail kvs)

end

/-- String form of `JSON.stringify`. -/
def stringify (v : Json) : String := String.mk (strVal v)

/-- Value of a hexadecimal digit character. -/
def parseHexDigit (c : Char) : Option Nat :=
  if 48 ≤ c.toNat && c.toNat ≤ 57 then some (c.toNat - 48)
  else if 97 ≤ c.toNat && c.toNat ≤ 102 then some (c.toNat - 87)
  else if 65 ≤ c.toNat && c.toNat ≤ 70 then some (c.toNat - 55)
  else none

/-- Prepends a character to the string part of a string-reader result. -/
def consFst (c : Char) (p : List Char × List Char) : List Char × List Char :=
  (c :: p.1, p.2)

/-- Reader of a JSON string body (after the opening quote): literal
characters up to the unescaped closing quote, with the backslash escapes
undone; raw control characters are rejected as `JSON.parse` rejects them.
Lone-surrogate `\u` sequences lie outside the value domain and map to the
replacement of `Char.ofNat`. -/
def parseStr : List Char → Option (List Char × List Char)
  | [] => none
  | c :: rest =>
      if c = '"' then some ([], rest)
      else if c = '\\' then
        match rest with
        | [] => none
        | e :: r =>
            if e = '"' then (parseStr r).map (consFst '"')
            else if e = '\\' then (parseStr r).map (consFst '\\')
            else if e = '/' then (parseStr r).map (consFst '/')
            else if e = 'b' then (parseStr r).map (consFst '\x08')
            else if e = 'f' then (parseStr r).map (consFst '\x0c')
            else if e = 'n' then (parseStr r).map (consFst '\n')
            else if e = 'r' then (parseStr r).map (consFst '\r')
            else if e = 't' then (parseStr r).map (consFst '\t')
            else if e = 'u' then
              match r with
              | h1 :: h2 :: h3 :: h4 :: r2 =>
                  match parseHexDigit h1, parseHexDigit h2,
                      parseHexDigit h3, parseHexDigit h4 with
                  | some d1, some d2, some d3, some d4 =>
                      (parseStr r2).map
                        (consFst (Char.ofNat (d1 * 4096 + d2 * 256 + d3 * 16 + d4)))
                  | _, _, _, _ => none
              | _ => none
            else none
      else if c.toNat < 32 then none
      else (parseStr rest).map (consFst c)

/-- Maximal leading run of decimal digits, as digit values. -/
def takeDigits : List Char → List Nat × List Char
  | [] => ([], [])
  | c :: rest =>
      if 48 ≤ c.toNat && c.toNat ≤ 57 then
        let (ds, r) := takeDigits rest
        ((c.toNat - 48) :: ds, r)
      else ([], c :: rest)

/-- Value of a most-significant-first digit-value list. -/
def digitsToNat (ds : List Nat) : Nat := ds.foldl (fun a d => a * 10 + d) 0

/-- Reader of a nonempty digit run. -/
def parseNatNum (cs : List Char) : Option (Nat × List Char) :=
  match takeDigits cs with
  | ([], _) => none
  | (ds, r) => some (digitsToNat ds, r)

/-- Reader of a JSON integer: an optional minus sign and a digit run. -/
def parseIntNum : List Char → Option (Int × List Char)
  | [] => none
  | c :: rest =>
      if c = '-' then (parseNatNum rest).map fun p => (-(p.1 : Int), p.2)
      else (parseNatNum (c :: rest)).map fun p => ((p.1 : Int), p.2)

/-- Checks that `lit` is a literal prefix, returning the remainder. -/
def expectLit (lit : List Char) (cs : List Char) : Option (List Char) :=
  if lit.isPrefixOf cs then some (cs.drop lit.length) else none

mutual

/-- Fuel-indexed recursive-descent reader of one JSON value.  The fuel
bounds the nesting recursion; every recursive call consumes fuel, and
`parseJson` supplies enough for its whole input. -/
def parseVal : Nat → List Char → Option (Json × List Char)
  | 0, _ => none
  | _ + 1, [] => none
  | fuel + 1, c :: rest =>
      if c = 'n' then (expectLit ['u', 'l', 'l'] rest).map fun r => (.null, r)
      else if c = 't' then (expectLit ['r', 'u', 'e'] rest).map fun r => (.bool true, r)
      else if c = 'f' then (expectLit ['a', 'l', 's', 'e'] rest).map fun r => (.bool false, r)
      else if c = '"' then (parseStr rest).map fun p => (.str p.1, p.2)
      else if c = '[' then
        match rest with
        | [] => none
        | c2 :: r2 =>
            if c2 = ']' then some (.arr [], r2)
            else
              (parseVal fuel (c2 :: r2)).bind fun p =>
                (parseArrTail fuel p.2).map fun q => (.arr (p.1 :: q.1), q.2)
      else if c = '\x7b' then
        match rest with
        | [] => none
        | c2 :: r2 =>
            if c2 = '\x7d' then some (.obj [], r2)
            else
              (parseMember fuel (c2 :: r2)).bind fun p =>
                (parseObjTail fuel p.2).map fun q => (.obj (p.1 :: q.1), q.2)
      else (parseIntNum (c :: rest)).map fun p => (.num p.1, p.2)

/-- Reader of an array's continuation: `]` ends it, `,` precedes the next
element. -/
def parseArrTail : Nat → List Char → Option (List Json × List Char)
  | 0, _ => none
  | _ + 1, [] => none
  | fuel + 1, c :: rest =>
      if c = ']' then some ([], rest)
      else if c = ',' then
        (parseVal fuel rest).bind fun p =>
          (parseArrTail fuel p.2).map fun q => (p.1 :: q.1, q.2)
      else none

/-- Reader of one object member `"key":value`. -/
def parseMember : Nat → List Char → Option ((List Char × Json) × List Char)
  | 0, _ => none
  | _ + 1, [] => none
  | fuel + 1, c :: rest =>
      if c = '"' then
        (parseStr rest).bind fun p =>
          match p.2 with
          | ':' :: r3 => (parseVal fuel r3).map fun q => ((p.1, q.1), q.2)
          | _ => none
      else none

/-- Reader of an object's continuation: `}` ends it, `,` precedes the next
member. -/
def parseObjTail : Nat → List Char → Option (List (List Char × Json) × List Char)
  | 0, _ => none
  | _ + 1, [] => none
  | fuel + 1, c :: rest =>
      if c = '\x7d' then some ([], rest)
      else if c = ',' then
        (parseMember fuel rest).bind fun p =>
          (parseObjTail fuel p.2).map fun q => (p.1 :: q.1, q.2)
      else none

end

/-- Model of `JSON.parse`: one value covering the whole input.  The fuel
`2 * length + 1` is ample for any input (each reader step consumes input
or immediately delegates once). -/
def parseJson (s : String) : Option Json :=
  match parseVal (2 * s.length + 1) s.toList with
  | some (v, []) => some v
  | _ => none

/-! Fuel adequate for reading back a printed value: a nesting measure of
the value (proof infrastructure for the round-trip, not part of the
embedding). -/

mutual

/-- Fuel needed by `parseVal` on `strVal v`. -/
def jfuel : Json → Nat
  | .null => 1
  | .bool _ => 1
  | .num _ => 1
  | .str _ => 1
  | .arr xs => 1 + jfuelA xs
  | .obj kvs => 1 + jfuelO kvs

/-- Fuel needed by `parseArrTail` on `strArrTail xs`. -/
def jfuelA : List Json → Nat
  | [] => 1
  | x :: xs => 1 + jfuel x + jfuelA xs

/-- Fuel needed by `parseObjTail` on `strObjTail kvs`. -/
def jfuelO : List (List Char × Json) → Nat
  | [] => 1
  | (_, v) :: kvs => 2 + jfuel v + jfuelO kvs

end

/-- Starting characters that cannot continue a decimal digit run (the only
printed form whose reader is greedy). -/
def nonDigitStart : List Char → Bool
  | [] => true
  | c :: _ => !(48 ≤ c.toNat && c.toNat ≤ 57)

/-! ## Game-code cache (`src/unnamed/part_000`: `cacheGameCode`,
`getCachedGameCode`)

Redis is modelled as an association list from keys to stored strings;
`redis.set` conses (lookup takes the most recent binding) and TTLs are not
modelled (the claims read back immediately). -/

/-- Key-to-string Redis store. -/
abbrev CacheState : Type := List (String × String)

/-- The cache key both operations derive:
`generateCacheKey(CACHE_KEYS.GAME_CODE, template + ":" + prompt)`. -/
def gameCodeKey (prompt template : String) : String :=
  generateCacheKey "game:code:" (template ++ ":" ++ prompt)

/-- Model of `cacheGameCode(prompt, template, gameData)`: store the
serialized value under the derived key. -/
def cacheGameCode (prompt template : String) (gameData : Json)
    (s : CacheState) : CacheState :=
  (gameCodeKey prompt template, stringify gameData) :: s

/-- Model of `getCachedGameCode(prompt, template)`: a missing (or falsy)
entry is `null`, a present entry is `JSON.parse`d; a parse throw is an
error, not `null`. -/
def getCachedGameCode (prompt template : String) (s : CacheState) :
    Except String (Option Json) :=
  match alookup (gameCodeKey prompt template) s with
  | none => .ok none
  | some cached =>
      if cached = "" then .ok none
      else
        match parseJson cached with
        | some v => .ok (some v)
        | none => .error "JSON.parse threw on the cached payload"

/-! ## Digit and number lemmas for the JSON round-trip -/

theorem digitChar_toNat (d : Nat) (h : d < 10) : (digitChar d).toNat = 48 + d := by
  interval_cases d <;> decide

theorem char_ne_of_toNat_ne {c d : Char} (h : c.toNat ≠ d.toNat) : c ≠ d :=
  fun hc => h (by rw [hc])

theorem natCharsAux_eq (n : Nat) : ∀ acc, natCharsAux n acc = natChars n ++ acc := by
  induction n using Nat.strong_induction_on with
  | _ n ih =>
    intro acc
    by_cases h : n < 10
    · simp [natChars, natCharsAux, h]
    · have hdiv : n / 10 < n := Nat.div_lt_self (by omega) (by omega)
      rw [natCharsAux, if_neg h, ih (n / 10) hdiv]
      conv_rhs => rw [natChars, natCharsAux, if_neg h, ih (n / 10) hdiv]
      simp

theorem natChars_eq (n : Nat) :
    natChars n = if n < 10 then [digitChar n]
      else natChars (n / 10) ++ [digitChar (n % 10)] := by
  by_cases h : n < 10
  · simp [natChars, natCharsAux, h]
  · have hdiv : n / 10 < n := Nat.div_lt_self (by omega) (by omega)
    rw [natChars, natCharsAux, if_neg h, natCharsAux_eq, if_neg h]

theorem natChars_digits (n : Nat) :
    ∀ c ∈ natChars n, 48 ≤ c.toNat ∧ c.toNat ≤ 57 := by
  induction n using Nat.strong_induction_on with
  | _ n ih =>
    intro c hc
    rw [natChars_eq] at hc
    by_cases h : n < 10
    · rw [if_pos h] at hc
      simp at hc
      subst hc
      rw [digitChar_toNat n h]; omega
    · rw [if_neg h] at hc
      have hdiv : n / 10 < n := Nat.div_lt_self (by omega) (by omega)
      rcases List.mem_append.mp hc with h1 | h2
      · exact ih (n / 10) hdiv c h1
      · simp at h2
        subst h2
        rw [digitChar_toNat (n % 10) (Nat.mod_lt _ (by omega))]
        have := Nat.mod_lt n (y := 10) (by omega)
        omega

theorem natChars_head (n : Nat) :
    ∃ d tl, natChars n = digitChar d :: tl ∧ d < 10 := by
  induction n using Nat.strong_induction_on with
  | _ n ih =>
    rw [natChars_eq]
    by_cases h : n < 10
    · exact ⟨n, [], by simp [h], h⟩
    · have hdiv : n / 10 < n := Nat.div_lt_self (by omega) (by omega)
      obtain ⟨d, tl, hnc, hd⟩ := ih (n / 10) hdiv
      exact ⟨d, tl ++ [digitChar (n % 10)], by simp [h, hnc], hd⟩

theorem foldl_natChars (n : Nat) :
    ∀ a, ((natChars n).map fun c => c.toNat - 48).foldl (fun a d => a * 10 + d) a =
      a * 10 ^ (natChars n).length + n := by
  induction n using Nat.strong_induction_on with
  | _ n ih =>
    intro a
    rw [natChars_eq]
    by_cases h : n < 10
    · simp [h, digitChar_toNat n h]
    · have hdiv : n / 10 < n := Nat.div_lt_self (by omega) (by omega)
      rw [if_neg h]
      simp only [List.map_append, List.foldl_append, List.length_append,
        List.map_cons, List.map_nil, List.foldl_cons, List.foldl_nil,
        List.length_cons, List.length_nil]
      rw [ih (n / 10) hdiv a, digitChar_toNat (n % 10) (Nat.mod_lt _ (by omega))]
      have hdm := Nat.div_add_mod n 10
      have h48 : 48 + n % 10 - 48 = n % 10 := by omega
      have hL : (natChars (n / 10)).length + (0 + 1) = (natChars (n / 10)).length + 1 := by
        omega
      rw [h48, hL, pow_succ]
      have hring : (a * 10 ^ (natChars (n / 10)).length + n / 10) * 10 =
          a * (10 ^ (natChars (n / 10)).length * 10) + n / 10 * 10 := by ring
      omega

theorem natChars_ne_nil (n : Nat) : natChars n ≠ [] := by
  obtain ⟨d, tl, hnc, _⟩ := natChars_head n
  simp [hnc]

theorem takeDigits_append (ds rest : List Char)
    (hds : ∀ c ∈ ds, 48 ≤ c.toNat ∧ c.toNat ≤ 57)
    (hrest : nonDigitStart rest = true) :
    takeDigits (ds ++ rest) = (ds.map fun c => c.toNat - 48, rest) := by
  induction ds with
  | nil =>
      simp only [List.nil_append, List.map_nil]
      match rest, hrest with
      | [], _ => rfl
      | c :: tl, hrest =>
          simp only [nonDigitStart, Bool.not_eq_true'] at hrest
          rw [takeDigits, if_neg (by simp_all)]
  | cons c ds ih =>
      have hc := hds c (by simp)
      have hrec := ih fun x hx => hds x (by simp [hx])
      simp only [List.cons_append, List.map_cons]
      rw [takeDigits, if_pos (by simp [hc.1, hc.2]), hrec]

theorem parseNatNum_natChars (n : Nat) (rest : List Char)
    (h : nonDigitStart rest = true) :
    parseNatNum (natChars n ++ rest) = some (n, rest) := by
  have hval : digitsToNat ((natChars n).map fun c => c.toNat - 48) = n := by
    rw [digitsToNat, foldl_natChars n 0]; simp
  obtain ⟨d, tl, hnc, _⟩ := natChars_head n
  rw [parseNatNum, takeDigits_append _ _ (natChars_digits n) h, hnc]
  simp only [List.map_cons]
  have hlist : ((digitChar d).toNat - 48) :: List.map (fun c => c.toNat - 48) tl =
      (natChars n).map fun c => c.toNat - 48 := by
    rw [hnc, List.map_cons]
  rw [hlist, hval]

theorem parseIntNum_intChars (n : Int) (rest : List Char)
    (h : nonDigitStart rest = true) :
    parseIntNum (intChars n ++ rest) = some (n, rest) := by
  rw [intChars]
  by_cases hn : n < 0
  · rw [if_pos hn]
    simp only [List.cons_append]
    rw [parseIntNum, if_pos rfl, parseNatNum_natChars _ _ h]
    have habs : (n.natAbs : Int) = -n := by omega
    simp [habs]
  · rw [if_neg hn]
    obtain ⟨d, tl, hnc, hd⟩ := natChars_head n.toNat
    rw [hnc]
    simp only [List.cons_append]
    have hne : digitChar d ≠ '-' := by
      apply char_ne_of_toNat_ne
      rw [digitChar_toNat d hd]
      have h45 : ('-').toNat = 45 := rfl
      omega
    rw [parseIntNum, if_neg hne, ← List.cons_append, ← hnc,
      parseNatNum_natChars _ _ h]
    have htn : (n.toNat : Int) = n := Int.toNat_of_nonneg (by omega)
    simp [htn]

/-! ## String-escape lemmas for the JSON round-trip -/

theorem parseHexDigit_hexChar (x : Nat) (h : x < 16) :
    parseHexDigit (hexChar x) = some x := by
  interval_cases x <;> decide

theorem parseStr_quote (rest : List Char) :
    parseStr ('"' :: rest) = some ([], rest) := by
  simp [parseStr.eq_def]

theorem parseStr_escQuote (r : List Char) :
    parseStr ('\\' :: '"' :: r) = (parseStr r).map (consFst '"') := by
  conv_lhs => rw [parseStr.eq_def]
  simp

theorem parseStr_escBackslash (r : List Char) :
    parseStr ('\\' :: '\\' :: r) = (parseStr r).map (consFst '\\') := by
  conv_lhs => rw [parseStr.eq_def]
  simp

theorem parseStr_escB (r : List Char) :
    parseStr ('\\' :: 'b' :: r) = (parseStr r).map (consFst '\x08') := by
  conv_lhs => rw [parseStr.eq_def]
  simp

theorem parseStr_escF (r : List Char) :
    parseStr ('\\' :: 'f' :: r) = (parseStr r).map (consFst '\x0c') := by
  conv_lhs => rw [parseStr.eq_def]
  simp

theorem parseStr_escN (r : List Char) :
    parseStr ('\\' :: 'n' :: r) = (parseStr r).map (consFst '\n') := by
  conv_lhs => rw [parseStr.eq_def]
  simp

theorem parseStr_escR (r : List Char) :
    parseStr ('\\' :: 'r' :: r) = (parseStr r).map (consFst '\r') := by
  conv_lhs => rw [parseStr.eq_def]
  simp

theorem parseStr_escT (r : List Char) :
    parseStr ('\\' :: 't' :: r) = (parseStr r).map (consFst '\t') := by
  conv_lhs => rw [parseStr.eq_def]
  simp

theorem parseStr_escU (a b : Nat) (ha : a < 16) (hb : b < 16) (r : List Char) :
    parseStr ('\\' :: 'u' :: '0' :: '0' :: hexChar a :: hexChar b :: r) =
      (parseStr r).map (consFst (Char.ofNat (a * 16 + b))) := by
  conv_lhs => rw [parseStr.eq_def]
  simp [parseHexDigit_hexChar a ha, parseHexDigit_hexChar b hb,
    show parseHexDigit '0' = some 0 from by decide]

theorem parseStr_lit (c : Char) (h1 : c ≠ '"') (h2 : c ≠ '\\')
    (h3 : ¬c.toNat < 32) (rest : List Char) :
    parseStr (c :: rest) = (parseStr rest).map (consFst c) := by
  conv_lhs => rw [parseStr.eq_def]
  simp [h1, h2, h3]

theorem parseStr_escBody (s : List Char) :
    ∀ rest, parseStr (escBody s ++ '"' :: rest) = some (s, rest) := by
  induction s with
  | nil =>
      intro rest
      simp [escBody, parseStr_quote]
  | cons c s ih =>
      intro rest
      have hstep : escBody (c :: s) = escapeChar c ++ escBody s := by
        simp [escBody]
      rw [hstep, List.append_assoc]
      by_cases h1 : c = '"'
      · subst h1
        simp [escapeChar, parseStr_escQuote, ih, consFst]
      · by_cases h2 : c = '\\'
        · subst h2
          simp [escapeChar, parseStr_escBackslash, ih, consFst]
        · by_cases h3 : c = '\x08'
          · subst h3
            simp [escapeChar, parseStr_escB, ih, consFst]
          · by_cases h4 : c = '\t'
            · subst h4
              simp [escapeChar, parseStr_escT, ih, consFst]
            · by_cases h5 : c = '\n'
              · subst h5
                simp [escapeChar, parseStr_escN, ih, consFst]
              · by_cases h6 : c = '\x0c'
                · subst h6
                  simp [escapeChar, parseStr_escF, ih, consFst]
                · by_cases h7 : c = '\r'
                  · subst h7
                    simp [escapeChar, parseStr_escR, ih, consFst]
                  · by_cases h8 : c.toNat < 32
                    · rw [escapeChar, if_neg h1, if_neg h2, if_neg h3, if_neg h4,
                        if_neg h5, if_neg h6, if_neg h7, if_pos h8]
                      simp only [List.cons_append, List.nil_append]
                      rw [parseStr_escU (c.toNat / 16) (c.toNat % 16) (by omega)
                        (by omega), ih]
                      have harith : c.toNat / 16 * 16 + c.toNat % 16 = c.toNat := by
                        omega
                      simp [harith, Char.ofNat_toNat, consFst]
                    · rw [escapeChar, if_neg h1, if_neg h2, if_neg h3, if_neg h4,
                        if_neg h5, if_neg h6, if_neg h7, if_neg h8]
                      simp only [List.cons_append, List.nil_append]
                      rw [parseStr_lit c h1 h2 h8, ih]
                      simp [consFst]

/-! ## Reader step lemmas (one constructor layer each) -/

theorem parseVal_null (fuel : Nat) (rest : List Char) :
    parseVal (fuel + 1) ('n' :: 'u' :: 'l' :: 'l' :: rest) = some (.null, rest) := by
  rw [parseVal.eq_def]
  simp [expectLit]

theorem parseVal_true (fuel : Nat) (rest : List Char) :
    parseVal (fuel + 1) ('t' :: 'r' :: 'u' :: 'e' :: rest) =
      some (.bool true, rest) := by
  rw [parseVal.eq_def]
  simp [expectLit]

theorem parseVal_false (fuel : Nat) (rest : List Char) :
    parseVal (fuel + 1) ('f' :: 'a' :: 'l' :: 's' :: 'e' :: rest) =
      some (.bool false, rest) := by
  rw [parseVal.eq_def]
  simp [expectLit]

theorem parseVal_str (fuel : Nat) (rest : List Char) :
    parseVal (fuel + 1) ('"' :: rest) =
      (parseStr rest).map fun p => (.str p.1, p.2) := by
  rw [parseVal.eq_def]
  simp

theorem parseVal_arrNil (fuel : Nat) (rest : List Char) :
    parseVal (fuel + 1) ('[' :: ']' :: rest) = some (.arr [], rest) := by
  rw [parseVal.eq_def]
  simp

theorem parseVal_arrCons (fuel : Nat) (c2 : Char) (r2 : List Char)
    (h : c2 ≠ ']') :
    parseVal (fuel + 1) ('[' :: c2 :: r2) =
      (parseVal fuel (c2 :: r2)).bind fun p =>
        (parseArrTail fuel p.2).map fun q => (.arr (p.1 :: q.1), q.2) := by
  rw [parseVal.eq_def]
  simp [h]

theorem parseVal_objNil (fuel : Nat) (rest : List Char) :
    parseVal (fuel + 1) ('\x7b' :: '\x7d' :: rest) = some (.obj [], rest) := by
  rw [parseVal.eq_def]
  simp

theorem parseVal_objCons (fuel : Nat) (c2 : Char) (r2 : List Char)
    (h : c2 ≠ '\x7d') :
    parseVal (fuel + 1) ('\x7b' :: c2 :: r2) =
      (parseMember fuel (c2 :: r2)).bind fun p =>
        (parseObjTail fuel p.2).map fun q => (.obj (p.1 :: q.1), q.2) := by
  rw [parseVal.eq_def]
  simp [h]

theorem parseVal_default (fuel : Nat) (c : Char) (rest : List Char)
    (h1 : c ≠ 'n') (h2 : c ≠ 't') (h3 : c ≠ 'f') (h4 : c ≠ '"')
    (h5 : c ≠ '[') (h6 : c ≠ '\x7b') :
    parseVal (fuel + 1) (c :: rest) =
      (parseIntNum (c :: rest)).map fun p => (.num p.1, p.2) := by
  rw [parseVal.eq_def]
  simp [h1, h2, h3, h4, h5, h6]

theorem parseArrTail_close (fuel : Nat) (rest : List Char) :
    parseArrTail (fuel + 1) (']' :: rest) = some ([], rest) := by
  rw [parseArrTail.eq_def]
  simp

theorem parseArrTail_comma (fuel : Nat) (rest : List Char) :
    parseArrTail (fuel + 1) (',' :: rest) =
      (parseVal fuel rest).bind fun p =>
        (parseArrTail fuel p.2).map fun q => (p.1 :: q.1, q.2) := by
  rw [parseArrTail.eq_def]
  simp

theorem parseMember_quote (fuel : Nat) (rest : List Char) :
    parseMember (fuel + 1) ('"' :: rest) =
      (parseStr rest).bind fun p =>
        match p.2 with
        | ':' :: r3 => (parseVal fuel r3).map fun q => ((p.1, q.1), q.2)
        | _ => none := by
  rw [parseMember.eq_def]
  simp

theorem parseObjTail_close (fuel : Nat) (rest : List Char) :
    parseObjTail (fuel + 1) ('\x7d' :: rest) = some ([], rest) := by
  rw [parseObjTail.eq_def]
  simp

theorem parseObjTail_comma (fuel : Nat) (rest : List Char) :
    parseObjTail (fuel + 1) (',' :: rest) =
      (parseMember fuel rest).bind fun p =>
        (parseObjTail fuel p.2).map fun q => (p.1 :: q.1, q.2) := by
  rw [parseObjTail.eq_def]
  simp

/-! ## Printed-form shape lemmas -/

theorem intChars_cons (n : Int) :
    ∃ c cs, intChars n = c :: cs ∧ (c = '-' ∨ ∃ d, d < 10 ∧ c = digitChar d) := by
  rw [intChars]
  by_cases hn : n < 0
  · exact ⟨'-', natChars n.natAbs, by simp [hn], Or.inl rfl⟩
  · obtain ⟨d, tl, hnc, hd⟩ := natChars_head n.toNat
    exact ⟨digitChar d, tl, by simp [hn, hnc], Or.inr ⟨d, hd, rfl⟩⟩

theorem strVal_cons (v : Json) :
    ∃ c cs, strVal v = c :: cs ∧ c ≠ ']' := by
  cases v with
  | null => refine ⟨'n', ['u', 'l', 'l'], by simp [strVal, kwNull], by decide⟩
  | bool b =>
      cases b
      · refine ⟨'f', ['a', 'l', 's', 'e'], by simp [strVal, kwFalse], by decide⟩
      · refine ⟨'t', ['r', 'u', 'e'], by simp [strVal, kwTrue], by decide⟩
  | num n =>
      obtain ⟨c, cs, hic, hc⟩ := intChars_cons n
      refine ⟨c, cs, by simp [strVal, hic], ?_⟩
      rcases hc with hc | ⟨d, hd, hc⟩
      · subst hc; decide
      · subst hc
        apply char_ne_of_toNat_ne
        rw [digitChar_toNat d hd]
        have h93 : (']').toNat = 93 := rfl
        omega
  | str s => refine ⟨'"', escBody s ++ ['"'], by simp [strVal], by decide⟩
  | arr xs =>
      cases xs with
      | nil => refine ⟨'[', [']'], by simp [strVal], by decide⟩
      | cons x xs =>
          refine ⟨'[', strVal x ++ strArrTail xs, by simp [strVal], by decide⟩
  | obj kvs =>
      cases kvs with
      | nil => refine ⟨'\x7b', ['\x7d'], by simp [strVal], by decide⟩
      | cons kv kvs =>
          refine ⟨'\x7b', strMember kv ++ strObjTail kvs, by simp [strVal], by decide⟩

theorem strArrTail_head (xs : List Json) :
    ∃ c cs, strArrTail xs = c :: cs ∧ (c = ']' ∨ c = ',') := by
  cases xs with
  | nil => exact ⟨']', [], by simp [strArrTail], Or.inl rfl⟩
  | cons x xs =>
      exact ⟨',', strVal x ++ strArrTail xs, by simp [strArrTail], Or.inr rfl⟩

theorem strObjTail_head (kvs : List (List Char × Json)) :
    ∃ c cs, strObjTail kvs = c :: cs ∧ (c = '\x7d' ∨ c = ',') := by
  cases kvs with
  | nil => exact ⟨'\x7d', [], by simp [strObjTail], Or.inl rfl⟩
  | cons kv kvs =>
      exact ⟨',', strMember kv ++ strObjTail kvs, by simp [strObjTail], Or.inr rfl⟩

theorem nonDigitStart_strArrTail (xs : List Json) (rest : List Char) :
    nonDigitStart (strArrTail xs ++ rest) = true := by
  obtain ⟨c, cs, hx, hc⟩ := strArrTail_head xs
  rw [hx]
  rcases hc with hc | hc <;> subst hc <;> simp [nonDigitStart]

theorem nonDigitStart_strObjTail (kvs : List (List Char × Json)) (rest : List Char) :
    nonDigitStart (strObjTail kvs ++ rest) = true := by
  obtain ⟨c, cs, hx, hc⟩ := strObjTail_head kvs
  rw [hx]
  rcases hc with hc | hc <;> subst hc <;> simp [nonDigitStart]

theorem jfuel_pos (v : Json) : 1 ≤ jfuel v := by
  cases v <;> simp [jfuel]

theorem jfuelA_pos (xs : List Json) : 1 ≤ jfuelA xs := by
  cases xs with
  | nil => simp [jfuelA]
  | cons x xs => simp [jfuelA]; omega

theorem jfuelO_pos (kvs : List (List Char × Json)) : 1 ≤ jfuelO kvs := by
  cases kvs with
  | nil => simp [jfuelO]
  | cons kv kvs => obtain ⟨k, v⟩ := kv; simp [jfuelO]; omega

/-! ## The JSON round-trip -/

theorem parseMember_print (k : List Char) (v : Json) (X : List Char) (fq2 : Nat)
    (hv : parseVal fq2 (strVal v ++ X) = some (v, X)) :
    parseMember (fq2 + 1) (strMember (k, v) ++ X) = some ((k, v), X) := by
  have hshape : strMember (k, v) ++ X =
      '"' :: (escBody k ++ ('"' :: ':' :: (strVal v ++ X))) := by
    simp [strMember]
  rw [hshape, parseMember_quote fq2, parseStr_escBody k (':' :: (strVal v ++ X))]
  simp [hv]

theorem parse_print (N : Nat) :
    (∀ v fq rest, jfuel v ≤ N → jfuel v ≤ fq → nonDigitStart rest = true →
      parseVal fq (strVal v ++ rest) = some (v, rest)) ∧
    (∀ xs fq rest, jfuelA xs ≤ N → jfuelA xs ≤ fq →
      parseArrTail fq (strArrTail xs ++ rest) = some (xs, rest)) ∧
    (∀ kvs fq rest, jfuelO kvs ≤ N → jfuelO kvs ≤ fq →
      parseObjTail fq (strObjTail kvs ++ rest) = some (kvs, rest)) := by
  induction N with
  | zero =>
      refine ⟨fun v _ _ hN _ _ => absurd hN (by have := jfuel_pos v; omega),
        fun xs _ _ hN _ => absurd hN (by have := jfuelA_pos xs; omega),
        fun kvs _ _ hN _ => absurd hN (by have := jfuelO_pos kvs; omega)⟩
  | succ N ih =>
      obtain ⟨ihV, ihA, ihO⟩ := ih
      refine ⟨?_, ?_, ?_⟩
      · intro v fq rest hN hfq hrest
        cases fq with
        | zero => exact absurd hfq (by have := jfuel_pos v; omega)
        | succ fq =>
          cases v with
          | null =>
              simp only [strVal, kwNull, List.cons_append, List.nil_append]
              exact parseVal_null fq rest
          | bool b =>
              cases b
              · have hsv : strVal (Json.bool false) = kwFalse := by
                  simp [strVal]
                simp only [hsv, kwFalse, List.cons_append, List.nil_append]
                exact parseVal_false fq rest
              · have hsv : strVal (Json.bool true) = kwTrue := by
                  simp [strVal]
                simp only [hsv, kwTrue, List.cons_append, List.nil_append]
                exact parseVal_true fq rest
          | num n =>
              obtain ⟨c, cs, hic, hcase⟩ := intChars_cons n
              have hbound : 48 ≤ c.toNat ∧ c.toNat ≤ 57 ∨ c.toNat = 45 := by
                rcases hcase with hc | ⟨d, hd, hc⟩
                · subst hc; right; rfl
                · subst hc; left; rw [digitChar_toNat d hd]; omega
              have hne1 : c ≠ 'n' :=
                char_ne_of_toNat_ne (by have : ('n').toNat = 110 := rfl; omega)
              have hne2 : c ≠ 't' :=
                char_ne_of_toNat_ne (by have : ('t').toNat = 116 := rfl; omega)
              have hne3 : c ≠ 'f' :=
                char_ne_of_toNat_ne (by have : ('f').toNat = 102 := rfl; omega)
              have hne4 : c ≠ '"' :=
                char_ne_of_toNat_ne (by have : ('"').toNat = 34 := rfl; omega)
              have hne5 : c ≠ '[' :=
                char_ne_of_toNat_ne (by have : ('[').toNat = 91 := rfl; omega)
              have hne6 : c ≠ '\x7b' :=
                char_ne_of_toNat_ne (by have : ('\x7b').toNat = 123 := rfl; omega)
              have hsv : strVal (.num n) = intChars n := by simp [strVal]
              rw [hsv, hic, List.cons_append,
                parseVal_default fq c (cs ++ rest) hne1 hne2 hne3 hne4 hne5 hne6,
                ← List.cons_append, ← hic, parseIntNum_intChars n rest hrest]
              rfl
          | str s =>
              have hsv : strVal (.str s) ++ rest =
                  '"' :: (escBody s ++ '"' :: rest) := by
                simp [strVal]
              rw [hsv, parseVal_str fq, parseStr_escBody s rest]
              rfl
          | arr xs =>
              cases xs with
              | nil =>
                  simp only [strVal, List.cons_append, List.nil_append]
                  exact parseVal_arrNil fq rest
              | cons x xs =>
                  simp only [jfuel, jfuelA] at hN hfq
                  obtain ⟨c2, cs2, hx, hc2⟩ := strVal_cons x
                  have hsv : strVal (.arr (x :: xs)) ++ rest =
                      '[' :: (c2 :: (cs2 ++ (strArrTail xs ++ rest))) := by
                    simp [strVal, hx]
                  rw [hsv, parseVal_arrCons fq c2 _ hc2, ← List.cons_append, ← hx,
                    ihV x fq (strArrTail xs ++ rest) (by omega) (by omega)
                      (nonDigitStart_strArrTail xs rest)]
                  simp [ihA xs fq rest (by omega) (by omega)]
          | obj kvs =>
              cases kvs with
              | nil =>
                  simp only [strVal, List.cons_append, List.nil_append]
                  exact parseVal_objNil fq rest
              | cons kv kvs =>
                  obtain ⟨k, v⟩ := kv
                  simp only [jfuel, jfuelO] at hN hfq
                  cases fq with
                  | zero => omega
                  | succ fq2 =>
                      have hsv : strVal (.obj ((k, v) :: kvs)) ++ rest =
                          '\x7b' :: ('"' :: ((escBody k ++ ['"', ':'] ++ strVal v) ++
                            (strObjTail kvs ++ rest))) := by
                        simp [strVal, strMember]
                      have hmem : parseMember (fq2 + 1)
                          (strMember (k, v) ++ (strObjTail kvs ++ rest)) =
                          some ((k, v), strObjTail kvs ++ rest) :=
                        parseMember_print k v _ fq2
                          (ihV v fq2 (strObjTail kvs ++ rest) (by omega) (by omega)
                            (nonDigitStart_strObjTail kvs rest))
                      have hshape2 : strMember (k, v) ++ (strObjTail kvs ++ rest) =
                          '"' :: ((escBody k ++ ['"', ':'] ++ strVal v) ++
                            (strObjTail kvs ++ rest)) := by
                        simp [strMember]
                      rw [hsv, parseVal_objCons (fq2 + 1) '"' _ (by decide),
                        ← hshape2, hmem]
                      simp [ihO kvs (fq2 + 1) rest (by omega) (by omega)]
      · intro xs fq rest hN hfq
        cases fq with
        | zero => exact absurd hfq (by have := jfuelA_pos xs; omega)
        | succ fq =>
          cases xs with
          | nil =>
              simp only [strArrTail, List.cons_append, List.nil_append]
              exact parseArrTail_close fq rest
          | cons x xs =>
              simp only [jfuelA] at hN hfq
              have hsv : strArrTail (x :: xs) ++ rest =
                  ',' :: (strVal x ++ (strArrTail xs ++ rest)) := by
                simp [strArrTail]
              rw [hsv, parseArrTail_comma fq,
                ihV x fq (strArrTail xs ++ rest) (by omega) (by omega)
                  (nonDigitStart_strArrTail xs rest)]
              simp [ihA xs fq rest (by omega) (by omega)]
      · intro kvs fq rest hN hfq
        cases fq with
        | zero => exact absurd hfq (by have := jfuelO_pos kvs; omega)
        | succ fq =>
          cases kvs with
          | nil =>
              simp only [strObjTail, List.cons_append, List.nil_append]
              exact parseObjTail_close fq rest
          | cons kv kvs =>
              obtain ⟨k, v⟩ := kv
              simp only [jfuelO] at hN hfq
              cases fq with
              | zero => omega
              | succ fq2 =>
                  have hsv : strObjTail ((k, v) :: kvs) ++ rest =
                      ',' :: (strMember (k, v) ++ (strObjTail kvs ++ rest)) := by
                    simp [strObjTail]
                  have hmem : parseMember (fq2 + 1)
                      (strMember (k, v) ++ (strObjTail kvs ++ rest)) =
                      some ((k, v), strObjTail kvs ++ rest) :=
                    parseMember_print k v _ fq2
                      (ihV v fq2 (strObjTail kvs ++ rest) (by omega) (by omega)
                        (nonDigitStart_strObjTail kvs rest))
                  rw [hsv, parseObjTail_comma (fq2 + 1), hmem]
                  simp [ihO kvs (fq2 + 1) rest (by omega) (by omega)]

theorem intChars_ne_nil (n : Int) : intChars n ≠ [] := by
  obtain ⟨c, cs, hic, _⟩ := intChars_cons n
  simp [hic]

theorem jfuel_le (N : Nat) :
    (∀ v, jfuel v ≤ N → jfuel v ≤ 2 * (strVal v).length) ∧
    (∀ xs, jfuelA xs ≤ N → jfuelA xs ≤ 2 * (strArrTail xs).length) ∧
    (∀ kvs, jfuelO kvs ≤ N → jfuelO kvs ≤ 2 * (strObjTail kvs).length) := by
  induction N with
  | zero =>
      refine ⟨fun v hN => absurd hN (by have := jfuel_pos v; omega),
        fun xs hN => absurd hN (by have := jfuelA_pos xs; omega),
        fun kvs hN => absurd hN (by have := jfuelO_pos kvs; omega)⟩
  | succ N ih =>
      obtain ⟨ihV, ihA, ihO⟩ := ih
      refine ⟨?_, ?_, ?_⟩
      · intro v hN
        cases v with
        | null => simp [jfuel, strVal, kwNull]
        | bool b => cases b <;> simp [jfuel, strVal, kwTrue, kwFalse]
        | num n =>
            have h1 : 1 ≤ (intChars n).length := by
              have := intChars_ne_nil n
              cases h : intChars n with
              | nil => exact absurd h this
              | cons c cs => simp
            simp only [jfuel, strVal]
            omega
        | str s => simp [jfuel, strVal]; omega
        | arr xs =>
            cases xs with
            | nil => simp [jfuel, jfuelA, strVal]
            | cons x xs =>
                simp only [jfuel, jfuelA] at hN ⊢
                have hx := ihV x (by omega)
                have hxs := ihA xs (by omega)
                simp only [strVal, List.length_cons, List.length_append]
                have h1 := jfuelA_pos xs
                have h2 : 1 ≤ (strArrTail xs).length := by
                  obtain ⟨c, cs, hh, _⟩ := strArrTail_head xs
                  simp [hh]
                omega
        | obj kvs =>
            cases kvs with
            | nil => simp [jfuel, jfuelO, strVal]
            | cons kv kvs =>
                obtain ⟨k, v⟩ := kv
                simp only [jfuel, jfuelO] at hN ⊢
                have hv := ihV v (by omega)
                have hkvs := ihO kvs (by omega)
                simp only [strVal, strMember, List.length_cons, List.length_append]
                have h2 : 1 ≤ (strObjTail kvs).length := by
                  obtain ⟨c, cs, hh, _⟩ := strObjTail_head kvs
                  simp [hh]
                simp only [List.length_cons, List.length_append] at hv hkvs ⊢
                omega
      · intro xs hN
        cases xs with
        | nil => simp [jfuelA, strArrTail]
        | cons x xs =>
            simp only [jfuelA] at hN ⊢
            have hx := ihV x (by omega)
            have hxs := ihA xs (by omega)
            simp only [strArrTail, List.length_cons, List.length_append]
            omega
      · intro kvs hN
        cases kvs with
        | nil => simp [jfuelO, strObjTail]
        | cons kv kvs =>
            obtain ⟨k, v⟩ := kv
            simp only [jfuelO] at hN ⊢
            have hv := ihV v (by omega)
            have hkvs := ihO kvs (by omega)
            simp only [strObjTail, strMember, List.length_cons, List.length_append]
            simp only [List.length_cons, List.length_append] at hv hkvs ⊢
            omega

/-- Reading a printed value back yields the value: the composition of the
`JSON.stringify` and `JSON.parse` models is the identity on the
JSON-serializable domain. -/
theorem parseJson_stringify (v : Json) : parseJson (stringify v) = some v := by
  have hlen : (stringify v).length = (strVal v).length := by
    simp [stringify, String.length]
  have hfuel : jfuel v ≤ 2 * (strVal v).length + 1 := by
    have := (jfuel_le (jfuel v)).1 v le_rfl
    omega
  have hlist : (stringify v).toList = strVal v := by
    simp [stringify, String.toList]
  rw [parseJson, hlen, hlist]
  have := (parse_print (jfuel v)).1 v (2 * (strVal v).length + 1)
    [] le_rfl hfuel rfl
  rw [List.append_nil] at this
  rw [this]

/-! ## Claim C6: rate limiter rejects at the limit without incrementing -/

theorem rateCalls_counter (now : Int) (ttlOf : String → Int) (ident : String)
    (L : Nat) (s0 : RateState)
    (h0 : alookup (generateCacheKey "ratelimit:" ident) s0 = none) :
    ∀ k, k ≤ L →
      alookup (generateCacheKey "ratelimit:" ident)
        (rateCalls now ttlOf ident L s0 k) =
        if k = 0 then none else some k := by
  intro k
  induction k with
  | zero => intro _; simpa [rateCalls]
  | succ k ihk =>
      intro hk
      have hprev := ihk (by omega)
      rw [rateCalls]
      cases k with
      | zero =>
          simp only [if_pos rfl] at hprev
          simp [checkRateLimit, hprev, alookup]
      | succ k2 =>
          simp only [if_neg (Nat.succ_ne_zero k2)] at hprev
          simp only [checkRateLimit, hprev]
          rw [if_neg (by omega)]
          simp [alookup]

/-- C6: for every identity and limit `L ≥ 1`, starting from a window with no
counter, the first `L` `checkRateLimit` calls are all allowed and bring the
stored counter to `L`; the `(L+1)`-th call returns `allowed = false` with
`remaining = 0` and leaves the store unchanged (no increment on
rejection). -/
theorem rate_limit_rejects_after_limit (ident : String) (L : Nat) (now : Int)
    (ttlOf : String → Int) (s0 : RateState) (hL : 1 ≤ L)
    (h0 : alookup (generateCacheKey "ratelimit:" ident) s0 = none) :
    (∀ k < L, ((checkRateLimit now ttlOf ident L
        (rateCalls now ttlOf ident L s0 k)).1).allowed = true) ∧
    alookup (generateCacheKey "ratelimit:" ident)
      (rateCalls now ttlOf ident L s0 L) = some L ∧
    (checkRateLimit now ttlOf ident L (rateCalls now ttlOf ident L s0 L)).1 =
      ⟨false, 0, now + max 0 (ttlOf (generateCacheKey "ratelimit:" ident)) * 1000⟩ ∧
    (checkRateLimit now ttlOf ident L (rateCalls now ttlOf ident L s0 L)).2 =
      rateCalls now ttlOf ident L s0 L := by
  have hcounter := rateCalls_counter now ttlOf ident L s0 h0
  have hL0 : alookup (generateCacheKey "ratelimit:" ident)
      (rateCalls now ttlOf ident L s0 L) = some L := by
    rw [hcounter L le_rfl, if_neg (by omega)]
  refine ⟨?_, hL0, ?_, ?_⟩
  · intro k hk
    have hkc := hcounter k (by omega)
    cases k with
    | zero =>
        simp only [if_pos rfl] at hkc
        simp [checkRateLimit, hkc]
    | succ k2 =>
        simp only [if_neg (Nat.succ_ne_zero k2)] at hkc
        simp only [checkRateLimit, hkc]
        rw [if_neg (by omega)]
  · cases L with
    | zero => omega
    | succ L2 =>
        simp only [checkRateLimit, hL0]
        rw [if_pos (by omega)]
  · cases L with
    | zero => omega
    | succ L2 =>
        simp only [checkRateLimit, hL0]
        rw [if_pos (by omega)]

theorem rate_limit_rejects_after_limit_witness :
    (∀ k < 2, ((checkRateLimit 0 (fun _ => 0) "user-1" 2
        (rateCalls 0 (fun _ => 0) "user-1" 2 [] k)).1).allowed = true) ∧
    alookup (generateCacheKey "ratelimit:" "user-1")
      (rateCalls 0 (fun _ => 0) "user-1" 2 [] 2) = some 2 ∧
    (checkRateLimit 0 (fun _ => 0) "user-1" 2
        (rateCalls 0 (fun _ => 0) "user-1" 2 [] 2)).1 =
      ⟨false, 0, 0 + max 0 ((fun _ => (0 : Int)) (generateCacheKey "ratelimit:" "user-1")) * 1000⟩ ∧
    (checkRateLimit 0 (fun _ => 0) "user-1" 2
        (rateCalls 0 (fun _ => 0) "user-1" 2 [] 2)).2 =
      rateCalls 0 (fun _ => 0) "user-1" 2 [] 2 :=
  rate_limit_rejects_after_limit "user-1" 2 0 (fun _ => 0) [] (by omega) rfl

/-! ## Claim C5: job lifecycle PENDING → PROCESSING → COMPLETED/FAILED -/

/-- C5: a job created by `enqueueJob` has status PENDING; when `dequeueJob`
returns it (here: from a queue holding only this job), its record is
PROCESSING with the start timestamp recorded; `completeJob(id, ref)` then
makes it COMPLETED with the result reference stored and no error message,
while `completeJob(id, undefined, "x")` makes it FAILED with error message
"x". -/
theorem job_lifecycle (s : QueueState) (p : JobPayload) (prio : Nat)
    (ref : String) (id : String) (s1 : QueueState)
    (hq : s.queue = []) (henq : enqueueJob p prio s = (id, s1)) :
    ((getJobStatus id s1).map JobRecord.status = some .PENDING) ∧
    ((dequeueJob s1).1.map QJob.id = some id) ∧
    ((getJobStatus id (dequeueJob s1).2).map JobRecord.status =
      some .PROCESSING) ∧
    ((getJobStatus id (dequeueJob s1).2).map JobRecord.startedAt =
      some (some s.now)) ∧
    ((getJobStatus id (completeJob id (some ref) none (dequeueJob s1).2)).map
      JobRecord.status = some .COMPLETED) ∧
    ((getJobStatus id (completeJob id (some ref) none (dequeueJob s1).2)).map
      JobRecord.gameId = some (some ref)) ∧
    ((getJobStatus id (completeJob id (some ref) none (dequeueJob s1).2)).map
      JobRecord.errorMessage = some none) ∧
    ((getJobStatus id (completeJob id none (some "x") (dequeueJob s1).2)).map
      JobRecord.status = some .FAILED) ∧
    ((getJobStatus id (completeJob id none (some "x") (dequeueJob s1).2)).map
      JobRecord.errorMessage = some (some "x")) := by
  have hid : id = (enqueueJob p prio s).1 := by rw [henq]
  have hs1 : s1 = (enqueueJob p prio s).2 := by rw [henq]
  subst hid
  subst hs1
  refine ⟨?_, ?_, ?_, ?_, ?_, ?_, ?_, ?_, ?_⟩ <;>
    simp [enqueueJob, getJobStatus, dequeueJob, completeJob, hq, zinsert,
      updateRecord, alookup, jsTruthyStr]

theorem job_lifecycle_witness :
    ((getJobStatus (enqueueJob ⟨"a ninja platformer", "Platformer", none, none, none⟩ 5
        ⟨[], [], [], 0, 0⟩).1
        (enqueueJob ⟨"a ninja platformer", "Platformer", none, none, none⟩ 5
        ⟨[], [], [], 0, 0⟩).2).map JobRecord.status = some .PENDING) ∧
    ((dequeueJob (enqueueJob ⟨"a ninja platformer", "Platformer", none, none, none⟩ 5
        ⟨[], [], [], 0, 0⟩).2).1.map QJob.id =
      some (enqueueJob ⟨"a ninja platformer", "Platformer", none, none, none⟩ 5
        ⟨[], [], [], 0, 0⟩).1) :=
  ⟨(job_lifecycle ⟨[], [], [], 0, 0⟩
    ⟨"a ninja platformer", "Platformer", none, none, none⟩ 5 "game-1"
    (enqueueJob ⟨"a ninja platformer", "Platformer", none, none, none⟩ 5
      ⟨[], [], [], 0, 0⟩).1
    (enqueueJob ⟨"a ninja platformer", "Platformer", none, none, none⟩ 5
      ⟨[], [], [], 0, 0⟩).2 rfl rfl).1,
   (job_lifecycle ⟨[], [], [], 0, 0⟩
    ⟨"a ninja platformer", "Platformer", none, none, none⟩ 5 "game-1"
    (enqueueJob ⟨"a ninja platformer", "Platformer", none, none, none⟩ 5
      ⟨[], [], [], 0, 0⟩).1
    (enqueueJob ⟨"a ninja platformer", "Platformer", none, none, none⟩ 5
      ⟨[], [], [], 0, 0⟩).2 rfl rfl).2.1⟩

/-! ## Claim C7: stale sweep -/

theorem alookup_updateRecord (id jid : String) (f : JobRecord → JobRecord)
    (records : List (String × JobRecord)) :
    alookup id (updateRecord jid f records) =
      if id = jid then (alookup id records).map f else alookup id records := by
  induction records with
  | nil => simp [updateRecord, alookup]
  | cons p rest ih =>
      obtain ⟨k, v⟩ := p
      simp only [updateRecord, List.map_cons] at ih ⊢
      by_cases hik : k = id
      · subst hik
        by_cases hij : k = jid
        · subst hij
          simp [alookup]
        · simp [alookup, hij, fun h : k = jid => hij h]
      · rw [alookup, if_neg hik, ih]
        by_cases hij : id = jid
        · rw [if_pos hij, if_pos hij, alookup, if_neg hik]
        · rw [if_neg hij, if_neg hij, alookup, if_neg hik]

theorem completeJob_now (jid : String) (g e : Option String) (st : QueueState) :
    (completeJob jid g e st).now = st.now := rfl

theorem getJobStatus_completeJob (id jid : String) (g e : Option String)
    (st : QueueState) :
    getJobStatus id (completeJob jid g e st) =
      if id = jid then
        (getJobStatus id st).map fun r =>
          { r with status := if jsTruthyStr e then .FAILED else .COMPLETED,
                   gameId := g, errorMessage := e, completedAt := some st.now }
      else getJobStatus id st := by
  simp [getJobStatus, completeJob, alookup_updateRecord]

theorem failedStale_idem (n : Int) (r : JobRecord) :
    failedStale n (failedStale n r) = failedStale n r := rfl

theorem sweep_now (l : List (String × JobRecord)) (st : QueueState) :
    (l.foldl (fun acc p => completeJob p.1 none (some "Job timeout") acc) st).now =
      st.now := by
  induction l generalizing st with
  | nil => rfl
  | cons p l ih => simp [List.foldl_cons, ih, completeJob_now]

theorem getJobStatus_sweep (l : List (String × JobRecord)) (st : QueueState)
    (id : String) :
    getJobStatus id
        (l.foldl (fun acc p => completeJob p.1 none (some "Job timeout") acc) st) =
      if id ∈ l.map Prod.fst then (getJobStatus id st).map (failedStale st.now)
      else getJobStatus id st := by
  induction l generalizing st with
  | nil => simp
  | cons p l ih =>
      simp only [List.foldl_cons, List.map_cons, List.mem_cons]
      rw [ih, completeJob_now]
      by_cases hp : id = p.1
      · rw [getJobStatus_completeJob, if_pos hp]
        by_cases hmem : id ∈ l.map Prod.fst
        · rw [if_pos hmem, if_pos (Or.inl hp), Option.map_map]
          cases getJobStatus id st with
          | none => simp
          | some r => simp [Function.comp, failedStale_idem, failedStale,
              jsTruthyStr]
        · rw [if_neg hmem, if_pos (Or.inl hp)]
          cases getJobStatus id st with
          | none => simp
          | some r => simp [failedStale, jsTruthyStr]
      · rw [getJobStatus_completeJob, if_neg hp]
        by_cases hmem : id ∈ l.map Prod.fst
        · rw [if_pos hmem, if_pos (Or.inr hmem)]
        · rw [if_neg hmem, if_neg (by simp [hp, hmem])]

theorem mem_filter_keys_of_alookup (records : List (String × JobRecord))
    (hnodup : (records.map Prod.fst).Nodup) (id : String) (r : JobRecord)
    (halo : alookup id records = some r) (P : String × JobRecord → Bool) :
    id ∈ (records.filter P).map Prod.fst ↔ P (id, r) = true := by
  induction records with
  | nil => simp [alookup] at halo
  | cons p rest ih =>
      obtain ⟨k, v⟩ := p
      simp only [List.map_cons, List.nodup_cons] at hnodup
      by_cases hk : k = id
      · subst hk
        rw [alookup, if_pos rfl, Option.some.injEq] at halo
        subst halo
        constructor
        · intro hmem
          by_cases hP : P (k, v) = true
          · exact hP
          · exfalso
            rw [List.filter_cons_of_neg (by simp [hP])] at hmem
            obtain ⟨q, hq1, hq2⟩ := List.mem_map.mp hmem
            exact hnodup.1 (hq2 ▸ List.mem_map_of_mem Prod.fst
              (List.mem_of_mem_filter hq1))
        · intro hP
          rw [List.filter_cons_of_pos (by simp [hP])]
          simp
      · rw [alookup, if_neg hk] at halo
        have hrec := ih hnodup.2 halo
        by_cases hP2 : P (k, v) = true
        · rw [List.filter_cons_of_pos (by simp [hP2])]
          simp only [List.map_cons, List.mem_cons]
          rw [← hrec]
          constructor
          · rintro (h | h)
            · exact absurd h.symm hk
            · exact h
          · exact Or.inr
        · rw [List.filter_cons_of_neg (by simp [hP2])]
          exact hrec

/-- C7: `clearStaleJobs(timeoutMs)` transitions every PROCESSING job whose
start timestamp is older than `timeoutMs` before now to FAILED with the
"Job timeout" error message (in particular never back to PENDING), leaves
every other job — including those started within the window — unchanged,
and returns the number of jobs transitioned. -/
theorem stale_sweep_transitions (tm : Int) (s : QueueState) (id : String)
    (r : JobRecord) (hnodup : (s.records.map Prod.fst).Nodup)
    (hr : getJobStatus id s = some r) :
    (clearStaleJobs tm s).1 =
      (s.records.filter fun p => isStale s.now tm p.2).length ∧
    (isStale s.now tm r = true →
      getJobStatus id (clearStaleJobs tm s).2 = some (failedStale s.now r) ∧
      (failedStale s.now r).status = .FAILED ∧
      (failedStale s.now r).errorMessage = some "Job timeout") ∧
    (isStale s.now tm r = false →
      getJobStatus id (clearStaleJobs tm s).2 = some r) := by
  have hmem := mem_filter_keys_of_alookup s.records hnodup id r hr
    (fun p => isStale s.now tm p.2)
  refine ⟨rfl, ?_, ?_⟩
  · intro hstale
    refine ⟨?_, rfl, rfl⟩
    show getJobStatus id
      ((s.records.filter fun p => isStale s.now tm p.2).foldl
        (fun acc p => completeJob p.1 none (some "Job timeout") acc) s) = _
    rw [getJobStatus_sweep, if_pos (hmem.mpr hstale), hr]
    rfl
  · intro hfresh
    show getJobStatus id
      ((s.records.filter fun p => isStale s.now tm p.2).foldl
        (fun acc p => completeJob p.1 none (some "Job timeout") acc) s) = _
    rw [getJobStatus_sweep, if_neg (fun hm => by simp [hmem.mp hm] at hfresh)]
    exact hr

theorem stale_sweep_transitions_witness :
    (clearStaleJobs 1000
        ⟨[("job-0", ⟨"p", "platformer", none, .PROCESSING, 5, 0, some 0,
          none, none, none⟩)], [], ["job-0"], 1, 60000⟩).1 =
      ([("job-0", (⟨"p", "platformer", none, .PROCESSING, 5, 0, some 0,
          none, none, none⟩ : JobRecord))].filter fun p =>
        isStale 60000 1000 p.2).length ∧
    (isStale 60000 1000 ⟨"p", "platformer", none, .PROCESSING, 5, 0, some 0,
        none, none, none⟩ = true →
      getJobStatus "job-0" (clearStaleJobs 1000
          ⟨[("job-0", ⟨"p", "platformer", none, .PROCESSING, 5, 0, some 0,
            none, none, none⟩)], [], ["job-0"], 1, 60000⟩).2 =
        some (failedStale 60000 ⟨"p", "platformer", none, .PROCESSING, 5, 0,
          some 0, none, none, none⟩) ∧
      (failedStale 60000 (⟨"p", "platformer", none, .PROCESSING, 5, 0, some 0,
        none, none, none⟩ : JobRecord)).status = .FAILED ∧
      (failedStale 60000 (⟨"p", "platformer", none, .PROCESSING, 5, 0, some 0,
        none, none, none⟩ : JobRecord)).errorMessage = some "Job timeout") ∧
    (isStale 60000 1000 ⟨"p", "platformer", none, .PROCESSING, 5, 0, some 0,
        none, none, none⟩ = false →
      getJobStatus "job-0" (clearStaleJobs 1000
          ⟨[("job-0", ⟨"p", "platformer", none, .PROCESSING, 5, 0, some 0,
            none, none, none⟩)], [], ["job-0"], 1, 60000⟩).2 =
        some ⟨"p", "platformer", none, .PROCESSING, 5, 0, some 0, none, none,
          none⟩) :=
  stale_sweep_transitions 1000
    ⟨[("job-0", ⟨"p", "platformer", none, .PROCESSING, 5, 0, some 0,
      none, none, none⟩)], [], ["job-0"], 1, 60000⟩ "job-0"
    ⟨"p", "platformer", none, .PROCESSING, 5, 0, some 0, none, none, none⟩
    (by simp) rfl

/-! ## Claim C8: the worker converts pipeline failures into terminal FAILED -/

/-- C8 (amended): `processJob` returns `false` on an empty queue without
error, and when the dequeued job's generation pipeline raises an exception,
the per-job handler catches it and completes the job with the error's
message; the record reaches the terminal FAILED state whenever that message
is non-empty (JS-truthy). `processJob` is a total function of the modelled
state, so no pipeline exception escapes it. An exception carrying the empty
message instead leaves the job COMPLETED (see the counterexample), which is
why the hypothesis `hmsg` is needed. -/
theorem worker_converts_pipeline_errors (deps : WorkerDeps) (s : QueueState)
    (sc : Nat) (job : QJob) (qrest : List (Nat × QJob)) (e : JsError)
    (r : JobRecord) (hq : s.queue = (sc, job) :: qrest)
    (hrec : getJobStatus job.id s = some r)
    (herr : workerPipeline deps job = .error e) (hmsg : e.message ≠ "") :
    (∀ s2 : QueueState, s2.queue = [] → processJob deps s2 = (false, s2)) ∧
    (processJob deps s).1 = true ∧
    ((getJobStatus job.id (processJob deps s).2).map JobRecord.status =
      some .FAILED) ∧
    ((getJobStatus job.id (processJob deps s).2).map JobRecord.errorMessage =
      some (some e.message)) := by
  have hempty : ∀ s2 : QueueState, s2.queue = [] →
      processJob deps s2 = (false, s2) := by
    intro s2 h2
    rw [processJob, dequeueJob, h2]
  have hdeq : dequeueJob s = (some job,
      { s with queue := qrest,
               processing := if job.id ∈ s.processing then s.processing
                 else job.id :: s.processing,
               records := updateRecord job.id
                 (fun r =>
                   { r with
                     status := JobStatus.PROCESSING, startedAt := some s.now })
                 s.records }) := by
    simp [dequeueJob, hq]
  have hstep : processJob deps s =
      (true, completeJob job.id none (some e.message) (dequeueJob s).2) := by
    simp [processJob, hdeq, herr]
  have hs1 : getJobStatus job.id (dequeueJob s).2 =
      some { r with status := .PROCESSING, startedAt := some s.now } := by
    rw [hdeq]
    simp only [getJobStatus]
    rw [alookup_updateRecord, if_pos rfl,
      show alookup job.id s.records = some r from hrec]
    rfl
  refine ⟨hempty, by rw [hstep], ?_, ?_⟩
  · rw [hstep]
    show (getJobStatus job.id (completeJob _ _ _ _)).map _ = _
    rw [getJobStatus_completeJob, if_pos rfl, hs1]
    simp [jsTruthyStr, hmsg]
  · rw [hstep]
    show (getJobStatus job.id (completeJob _ _ _ _)).map _ = _
    rw [getJobStatus_completeJob, if_pos rfl, hs1]
    rfl

theorem worker_converts_pipeline_errors_witness :
    (∀ s2 : QueueState, s2.queue = [] →
      processJob ⟨fun _ _ => .error ⟨none, "OpenAI returned an empty response while generating game code."⟩,
        fun _ => .ok (), fun _ => .ok "g"⟩ s2 = (false, s2)) ∧
    (processJob ⟨fun _ _ => .error ⟨none, "OpenAI returned an empty response while generating game code."⟩,
        fun _ => .ok (), fun _ => .ok "g"⟩
      ⟨[("job-0", ⟨"p", "platformer", none, .PENDING, 5, 0, none, none, none, none⟩)],
        [(5, ⟨"job-0", ⟨"p", "platformer", none, some 5, none⟩, 5, 0⟩)], [], 1, 0⟩).1 = true ∧
    ((getJobStatus "job-0" (processJob
        ⟨fun _ _ => .error ⟨none, "OpenAI returned an empty response while generating game code."⟩,
          fun _ => .ok (), fun _ => .ok "g"⟩
        ⟨[("job-0", ⟨"p", "platformer", none, .PENDING, 5, 0, none, none, none, none⟩)],
          [(5, ⟨"job-0", ⟨"p", "platformer", none, some 5, none⟩, 5, 0⟩)], [], 1, 0⟩).2).map
      JobRecord.status = some .FAILED) ∧
    ((getJobStatus "job-0" (processJob
        ⟨fun _ _ => .error ⟨none, "OpenAI returned an empty response while generating game code."⟩,
          fun _ => .ok (), fun _ => .ok "g"⟩
        ⟨[("job-0", ⟨"p", "platformer", none, .PENDING, 5, 0, none, none, none, none⟩)],
          [(5, ⟨"job-0", ⟨"p", "platformer", none, some 5, none⟩, 5, 0⟩)], [], 1, 0⟩).2).map
      JobRecord.errorMessage =
      some (some "OpenAI returned an empty response while generating game code.")) :=
  worker_converts_pipeline_errors
    ⟨fun _ _ => .error ⟨none, "OpenAI returned an empty response while generating game code."⟩,
      fun _ => .ok (), fun _ => .ok "g"⟩
    ⟨[("job-0", ⟨"p", "platformer", none, .PENDING, 5, 0, none, none, none, none⟩)],
      [(5, ⟨"job-0", ⟨"p", "platformer", none, some 5, none⟩, 5, 0⟩)], [], 1, 0⟩
    5 ⟨"job-0", ⟨"p", "platformer", none, some 5, none⟩, 5, 0⟩ []
    ⟨none, "OpenAI returned an empty response while generating game code."⟩
    ⟨"p", "platformer", none, .PENDING, 5, 0, none, none, none, none⟩
    rfl rfl rfl (by decide)

/-- Counterexample to the original C8 statement: a pipeline exception whose
message is the empty string (`new Error("")` gives `error.message === ""`)
is caught and handed to `completeJob`, but the source's truthiness test
`error ? FAILED : COMPLETED` sees the falsy `""` and marks the job
COMPLETED, not FAILED — while still storing the empty string as the error
message — so not every caught exception drives the job to the terminal
FAILED state. -/
theorem worker_empty_message_marks_completed_cx :
    ((getJobStatus "job-0" (processJob
        ⟨fun _ _ => .error ⟨none, ""⟩, fun _ => .ok (), fun _ => .ok "g"⟩
        ⟨[("job-0", ⟨"p", "platformer", none, .PENDING, 5, 0, none, none, none, none⟩)],
          [(5, ⟨"job-0", ⟨"p", "platformer", none, some 5, none⟩, 5, 0⟩)], [], 1, 0⟩).2).map
      JobRecord.status = some .COMPLETED) ∧
    ((getJobStatus "job-0" (processJob
        ⟨fun _ _ => .error ⟨none, ""⟩, fun _ => .ok (), fun _ => .ok "g"⟩
        ⟨[("job-0", ⟨"p", "platformer", none, .PENDING, 5, 0, none, none, none, none⟩)],
          [(5, ⟨"job-0", ⟨"p", "platformer", none, some 5, none⟩, 5, 0⟩)], [], 1, 0⟩).2).map
      JobRecord.errorMessage = some (some "")) :=
  ⟨rfl, rfl⟩

/-! ## Claim C10: cron endpoints require the configured secret -/

/-- C10: with `CRON_SECRET` unset, every request to the worker-tick and
stale-cleanup endpoints is answered 401 with the queue untouched, whatever
`Authorization` header is supplied; a request passes the gate only when a
non-empty secret is configured and the header is exactly `Bearer ` followed
by that secret (and such a request does pass it). -/
theorem cron_requires_secret :
    (∀ (header : Option String) (deps : WorkerDeps) (s : QueueState),
      cronWorkerGET header none deps s = (401, none, s)) ∧
    (∀ (header : Option String) (timeoutMs : Int) (s : QueueState),
      cronCleanupGET header none timeoutMs s = (401, none, s)) ∧
    (∀ (header secret : Option String), cronAuthorized header secret = true →
      ∃ sec, secret = some sec ∧ sec ≠ "" ∧
        header = some ("Bearer " ++ sec)) ∧
    (∀ sec : String, sec ≠ "" →
      cronAuthorized (some ("Bearer " ++ sec)) (some sec) = true) := by
  refine ⟨?_, ?_, ?_, ?_⟩
  · intro header deps s
    simp [cronWorkerGET, cronAuthorized, jsTruthyStr]
  · intro header timeoutMs s
    simp [cronCleanupGET, cronAuthorized, jsTruthyStr]
  · intro header secret hauth
    simp only [cronAuthorized, Bool.and_eq_true, decide_eq_true_eq] at hauth
    obtain ⟨⟨hh, hs⟩, heq⟩ := hauth
    cases secret with
    | none => simp [jsTruthyStr] at hs
    | some sec =>
        refine ⟨sec, rfl, ?_, ?_⟩
        · simpa [jsTruthyStr] using hs
        · simpa using heq
  · intro sec hsec
    have hb : "Bearer " ++ sec ≠ "" := by
      intro h
      have := congrArg String.length h
      simp [String.length_append] at this
      exact absurd this.1 (by decide)
    simp [cronAuthorized, jsTruthyStr, hsec, hb]

theorem cron_requires_secret_witness :
    cronWorkerGET (some "Bearer topsecret") none
      ⟨fun _ _ => .ok (), fun _ => .ok (), fun _ => .ok "g"⟩
      ⟨[], [], [], 0, 0⟩ = (401, none, ⟨[], [], [], 0, 0⟩) ∧
    cronCleanupGET (some "Bearer topsecret") none 1000 ⟨[], [], [], 0, 0⟩ =
      (401, none, ⟨[], [], [], 0, 0⟩) ∧
    (∃ sec, (some "topsecret" : Option String) = some sec ∧ sec ≠ "" ∧
      (some "Bearer topsecret" : Option String) = some ("Bearer " ++ sec)) ∧
    cronAuthorized (some ("Bearer " ++ "topsecret")) (some "topsecret") = true :=
  ⟨cron_requires_secret.1 (some "Bearer topsecret")
      ⟨fun _ _ => .ok (), fun _ => .ok (), fun _ => .ok "g"⟩ ⟨[], [], [], 0, 0⟩,
   cron_requires_secret.2.1 (some "Bearer topsecret") 1000 ⟨[], [], [], 0, 0⟩,
   cron_requires_secret.2.2.1 (some "Bearer topsecret") (some "topsecret")
     (by decide),
   cron_requires_secret.2.2.2 "topsecret" (by decide)⟩

/-! ## Claim C4: retry budget exhaustion and non-retryable fast failure -/

theorem genAttempt_err (o1 : Nat → Except JsError ChatOut)
    (o2 : Nat → Except JsError GameMetadata) (k : Nat) (e : JsError)
    (h : o1 k = .error e) : genAttempt o1 o2 k = (.error e, 1, 0) := by
  simp [genAttempt, requestGameCodeStep, h]

theorem genLoop_error_stop (o1 : Nat → Except JsError ChatOut)
    (o2 : Nat → Except JsError GameMetadata) (mr attempt cc mc : Nat)
    (ds : List Nat) (last : Option JsError) (e : JsError) (c m : Nat)
    (h1 : ¬attempt > mr) (h2 : genAttempt o1 o2 attempt = (.error e, c, m))
    (h3 : attempt ≥ mr ∨ isRetryableError e = false) :
    genLoop o1 o2 mr attempt cc mc ds last =
      ⟨.error (enrichError (some e) attempt mr), cc + c, mc + m, ds⟩ := by
  rw [genLoop, if_neg h1, h2]
  have hcond : (decide (attempt ≥ mr) || !isRetryableError e) = true := by
    rcases h3 with h | h <;> simp [h]
  simp [hcond]

theorem genLoop_error_retry (o1 : Nat → Except JsError ChatOut)
    (o2 : Nat → Except JsError GameMetadata) (mr attempt cc mc : Nat)
    (ds : List Nat) (last : Option JsError) (e : JsError) (c m : Nat)
    (h1 : ¬attempt > mr) (h2 : genAttempt o1 o2 attempt = (.error e, c, m))
    (h3 : attempt < mr) (h4 : isRetryableError e = true) :
    genLoop o1 o2 mr attempt cc mc ds last =
      genLoop o1 o2 mr (attempt + 1) (cc + c) (mc + m)
        (ds ++ [2 ^ attempt * 1000]) (some e) := by
  rw [genLoop, if_neg h1, h2]
  have hcond : (decide (attempt ≥ mr) || !isRetryableError e) = false := by
    simp [h4]; omega
  simp [hcond]

/-- C4: with `maxRetries = 3` and a collaborator raising a retryable error
on every call, `generateGameCode` invokes the collaborator exactly 3 times,
sleeps 2 and 4 seconds between attempts, and raises the wrapped error whose
attempt count is 3 and whose cause is the last underlying error; a
collaborator raising a non-retryable error on the first call is invoked
exactly once, with no backoff wait, before the wrapped error is raised. -/
theorem retry_budget_and_nonretryable :
    (∀ (o1 : Nat → Except JsError ChatOut)
       (o2 : Nat → Except JsError GameMetadata) (e : JsError),
      (∀ k, o1 k = .error e) → isRetryableError e = true →
      generateGameCodeRun o1 o2 3 =
        ⟨.error (enrichError (some e) 3 3), 3, 0, [2000, 4000]⟩) ∧
    (∀ (o1 : Nat → Except JsError ChatOut)
       (o2 : Nat → Except JsError GameMetadata) (e : JsError),
      o1 1 = .error e → isRetryableError e = false →
      generateGameCodeRun o1 o2 3 =
        ⟨.error (enrichError (some e) 1 3), 1, 0, []⟩) := by
  constructor
  · intro o1 o2 e hall hretry
    rw [generateGameCodeRun,
      genLoop_error_retry o1 o2 3 1 0 0 [] none e 1 0 (by omega)
        (genAttempt_err o1 o2 1 e (hall 1)) (by omega) hretry,
      genLoop_error_retry o1 o2 3 2 1 0 _ _ e 1 0 (by omega)
        (genAttempt_err o1 o2 2 e (hall 2)) (by omega) hretry,
      genLoop_error_stop o1 o2 3 3 2 0 _ _ e 1 0 (by omega)
        (genAttempt_err o1 o2 3 e (hall 3)) (Or.inl (by omega))]
    norm_num
  · intro o1 o2 e h1 hnr
    rw [generateGameCodeRun,
      genLoop_error_stop o1 o2 3 1 0 0 [] none e 1 0 (by omega)
        (genAttempt_err o1 o2 1 e h1) (Or.inr hnr)]

theorem retry_budget_and_nonretryable_witness :
    generateGameCodeRun (fun _ => .error ⟨some 429, "Too Many Requests"⟩)
      (fun _ => .error ⟨none, "unused"⟩) 3 =
      ⟨.error (enrichError (some ⟨some 429, "Too Many Requests"⟩) 3 3), 3, 0,
        [2000, 4000]⟩ ∧
    generateGameCodeRun (fun _ => .error ⟨some 400, "Invalid request body"⟩)
      (fun _ => .error ⟨none, "unused"⟩) 3 =
      ⟨.error (enrichError (some ⟨some 400, "Invalid request body"⟩) 1 3), 1, 0,
        []⟩ :=
  ⟨retry_budget_and_nonretryable.1 _ _ ⟨some 429, "Too Many Requests"⟩
      (fun _ => rfl) (by decide),
   retry_budget_and_nonretryable.2 _ _ ⟨some 400, "Invalid request body"⟩
      rfl (by decide)⟩

/-! ## Claim C3: post-call validation failures are not retried -/

theorem requestGameCodeStep_error_not_retryable
    (o1 : Nat → Except JsError ChatOut) (k : Nat) (ch : ChatOut) (e : JsError)
    (hok : o1 k = .ok ch) (herr : requestGameCodeStep o1 k = .error e) :
    isRetryableError e = false := by
  rw [requestGameCodeStep, hok] at herr
  simp only at herr
  split_ifs at herr with h1 h2 h3
  all_goals injection herr with h
  all_goals subst h
  all_goals decide

/-- C3 (amended): a generation attempt whose chat-completion call succeeds
but whose response fails post-call validation (empty content, missing
`Phaser` marker, or code below the length threshold) raises the content
error immediately, wrapped with attempt count 1: the error message matches
no retryable classification, so the collaborator is not invoked again and
no backoff wait occurs, even with attempts remaining in the budget. -/
theorem content_failure_raised_without_retry
    (o1 : Nat → Except JsError ChatOut) (o2 : Nat → Except JsError GameMetadata)
    (mr : Nat) (ch : ChatOut) (e : JsError) (hmr : 1 ≤ mr)
    (hok : o1 1 = .ok ch) (herr : requestGameCodeStep o1 1 = .error e) :
    generateGameCodeRun o1 o2 mr =
      ⟨.error (enrichError (some e) 1 mr), 1, 0, []⟩ := by
  have hnr := requestGameCodeStep_error_not_retryable o1 1 ch e hok herr
  have hatt : genAttempt o1 o2 1 = (.error e, 1, 0) := by
    simp [genAttempt, herr]
  rw [generateGameCodeRun,
    genLoop_error_stop o1 o2 mr 1 0 0 [] none e 1 0 (by omega) hatt
      (Or.inr hnr)]

/-- C3 (counterexample): with maxRetries 3 and a collaborator whose response
lacks the `Phaser` domain marker on every call, `generateGameCode` raises
immediately after one collaborator invocation with no backoff — the content
failure is not retried, contradicting the claim that it consumes an attempt
and the collaborator is invoked again. -/
theorem content_failure_not_retried_cx :
    generateGameCodeRun (fun _ => .ok ⟨some "hello"⟩)
      (fun _ => .error ⟨none, "unused"⟩) 3 =
      ⟨.error (enrichError (some ⟨none,
        "Generated code does not reference Phaser. Please refine the prompt and retry."⟩) 1 3),
        1, 0, []⟩ := by
  have herr : requestGameCodeStep (fun _ => .ok ⟨some "hello"⟩) 1 =
      .error ⟨none,
        "Generated code does not reference Phaser. Please refine the prompt and retry."⟩ := by
    rfl
  have hatt : genAttempt (fun _ => .ok ⟨some "hello"⟩)
      (fun _ => .error ⟨none, "unused"⟩) 1 =
      (.error ⟨none,
        "Generated code does not reference Phaser. Please refine the prompt and retry."⟩, 1, 0) := by
    simp [genAttempt, herr]
  rw [generateGameCodeRun,
    genLoop_error_stop _ _ 3 1 0 0 [] none _ 1 0 (by omega) hatt
      (Or.inr (by decide))]

theorem content_failure_raised_without_retry_witness :
    generateGameCodeRun (fun _ => .ok ⟨none⟩)
      (fun _ => .error ⟨none, "unused"⟩) 3 =
      ⟨.error (enrichError (some ⟨none,
        "OpenAI returned an empty response while generating game code."⟩) 1 3),
        1, 0, []⟩ :=
  content_failure_raised_without_retry (fun _ => .ok ⟨none⟩)
    (fun _ => .error ⟨none, "unused"⟩) 3 ⟨none⟩
    ⟨none, "OpenAI returned an empty response while generating game code."⟩
    (by omega) rfl rfl

/-! ## Claim C1: the two generation calls are awaited sequentially -/

/-- C1: evaluating `generateGame` on a valid request with collaborators that
all fulfill shows the visual-generation await RESOLVES (index 1 of the
trace) strictly before the code-generation call is ISSUED (index 2): the two
generation calls are sequential, so the claimed property — both collaborators
invoked before either result is awaited to resolution — is false of the
trace. -/
theorem orchestrator_generation_calls_sequential :
    generationCallsConcurrent
      ((generateGameRun
        ⟨fun _ => .ok ⟨"player.png", "background.png", []⟩, fun _ => .ok (),
         fun _ => .ok (), .ok (), .ok ⟨"pkg.zip", 1024⟩⟩
        "game-1" ⟨"platformer", "space station", "a brave astronaut explorer",
          "easy", none, none, none, "user-1", "u@example.com"⟩).2) = false ∧
    ((generateGameRun
        ⟨fun _ => .ok ⟨"player.png", "background.png", []⟩, fun _ => .ok (),
         fun _ => .ok (), .ok (), .ok ⟨"pkg.zip", 1024⟩⟩
        "game-1" ⟨"platformer", "space station", "a brave astronaut explorer",
          "easy", none, none, none, "user-1", "u@example.com"⟩).2.indexOf
      .visualResolved <
     (generateGameRun
        ⟨fun _ => .ok ⟨"player.png", "background.png", []⟩, fun _ => .ok (),
         fun _ => .ok (), .ok (), .ok ⟨"pkg.zip", 1024⟩⟩
        "game-1" ⟨"platformer", "space station", "a brave astronaut explorer",
          "easy", none, none, none, "user-1", "u@example.com"⟩).2.indexOf
      .codeCallStart) := by
  constructor
  · decide
  · decide

/-! ## Claim C2: theme validation happens in the route, not in generateGame -/

/-- C2 (counterexample): `OrchestratorService.generateGame`, called directly
with a theme of length 2 ("ab"), performs no validation: its first trace
event is the visual collaborator invocation and the run succeeds — no
ValidationError is raised and the collaborators are not called zero
times. -/
theorem generateGame_skips_validation_cx :
    ((generateGameRun
        ⟨fun _ => .ok ⟨"player.png", "background.png", []⟩, fun _ => .ok (),
         fun _ => .ok (), .ok (), .ok ⟨"pkg.zip", 1024⟩⟩
        "game-1" ⟨"platformer", "ab", "a brave astronaut explorer",
          "easy", none, none, none, "user-1", "u@example.com"⟩).2.head? =
      some .visualCallStart) ∧
    ((generateGameRun
        ⟨fun _ => .ok ⟨"player.png", "background.png", []⟩, fun _ => .ok (),
         fun _ => .ok (), .ok (), .ok ⟨"pkg.zip", 1024⟩⟩
        "game-1" ⟨"platformer", "ab", "a brave astronaut explorer",
          "easy", none, none, none, "user-1", "u@example.com"⟩).1.isOk =
      true) :=
  ⟨rfl, rfl⟩

theorem routePOSTtail_invalid (request : GameGenerationRequest)
    (rs1 : RateState) (deps : OrchDeps) (jobId : String)
    (h : (validateRequest request).valid = false) :
    routePOSTtail request rs1 deps jobId = ⟨400, [], rs1⟩ := by
  simp [routePOSTtail, h]

theorem validateRequest_short_theme (request : GameGenerationRequest)
    (h : (jsTrim request.theme).length < 3) :
    "Theme must be at least 3 characters" ∈ (validateRequest request).errors ∧
    (validateRequest request).valid = false := by
  have hcond : (decide (request.theme = "") ||
      decide ((jsTrim request.theme).length < 3)) = true := by
    simp [h]
  have hmem : "Theme must be at least 3 characters" ∈
      (validateRequest request).errors := by
    simp only [validateRequest, hcond, if_true]
    simp
  refine ⟨hmem, ?_⟩
  simp only [validateRequest] at hmem ⊢
  rw [List.isEmpty_eq_false_iff_exists_mem]
  exact ⟨_, hmem⟩

/-- C2 (amended): a theme shorter than 3 characters (after trimming) never
reaches a collaborator, but the rejection happens in the generation API
route, before `generateGame` is invoked — via the route's schema validation
or `validateRequest`, both returning 400 (or 429 when the rate limiter
denies first).  `validateRequest` itself flags the short theme;
`generateGame` performs no validation (see the counterexample). -/
theorem theme_too_short_rejected_in_route (p : RoutePayload)
    (requestId : String) (rld : Bool) (now : Int) (ttlOf : String → Int)
    (rs : RateState) (deps : OrchDeps) (jobId : String)
    (h : (jsTrim p.theme).length < 3) :
    ("Theme must be at least 3 characters" ∈
      (validateRequest (routeRequest p requestId)).errors) ∧
    (routePOST p requestId rld now ttlOf rs deps jobId).events = [] ∧
    ((routePOST p requestId rld now ttlOf rs deps jobId).status = 400 ∨
     (routePOST p requestId rld now ttlOf rs deps jobId).status = 429) := by
  have hreq : (jsTrim (routeRequest p requestId).theme).length < 3 := h
  have hval := validateRequest_short_theme (routeRequest p requestId) hreq
  refine ⟨hval.1, ?_⟩
  by_cases hso : schemaOk p = true
  · by_cases hrld : rld = true
    · have hrp : routePOST p requestId rld now ttlOf rs deps jobId =
          routePOSTtail (routeRequest p requestId) rs deps jobId := by
        simp [routePOST, hso, hrld]
      rw [hrp, routePOSTtail_invalid _ _ _ _ hval.2]
      exact ⟨rfl, Or.inl rfl⟩
    · by_cases hallowed : (checkRateLimit now ttlOf
          (routeRequest p requestId).userId 3 rs).1.allowed = true
      · have hrp : routePOST p requestId rld now ttlOf rs deps jobId =
            routePOSTtail (routeRequest p requestId)
              (checkRateLimit now ttlOf (routeRequest p requestId).userId 3 rs).2
              deps jobId := by
          simp [routePOST, hso, hrld, hallowed]
        rw [hrp, routePOSTtail_invalid _ _ _ _ hval.2]
        exact ⟨rfl, Or.inl rfl⟩
      · have hrp : routePOST p requestId rld now ttlOf rs deps jobId =
            ⟨429, [],
              (checkRateLimit now ttlOf (routeRequest p requestId).userId 3 rs).2⟩ := by
          simp only [Bool.not_eq_true] at hallowed
          simp [routePOST, hso, hrld, hallowed]
        rw [hrp]
        exact ⟨rfl, Or.inr rfl⟩
  · have hrp : routePOST p requestId rld now ttlOf rs deps jobId =
        ⟨400, [], rs⟩ := by
      simp only [Bool.not_eq_true] at hso
      simp [routePOST, hso]
    rw [hrp]
    exact ⟨rfl, Or.inl rfl⟩

theorem theme_too_short_rejected_in_route_witness :
    ("Theme must be at least 3 characters" ∈
      (validateRequest (routeRequest
        ⟨"platformer", "ab", "a brave astronaut explorer", "easy", some "user-1",
          "u@example.com"⟩ "req-1")).errors) ∧
    (routePOST ⟨"platformer", "ab", "a brave astronaut explorer", "easy",
        some "user-1", "u@example.com"⟩ "req-1" false 0 (fun _ => 0) []
        ⟨fun _ => .ok ⟨"p", "b", []⟩, fun _ => .ok (), fun _ => .ok (),
          .ok (), .ok ⟨"u", 1⟩⟩ "game-1").events = [] ∧
    ((routePOST ⟨"platformer", "ab", "a brave astronaut explorer", "easy",
        some "user-1", "u@example.com"⟩ "req-1" false 0 (fun _ => 0) []
        ⟨fun _ => .ok ⟨"p", "b", []⟩, fun _ => .ok (), fun _ => .ok (),
          .ok (), .ok ⟨"u", 1⟩⟩ "game-1").status = 400 ∨
     (routePOST ⟨"platformer", "ab", "a brave astronaut explorer", "easy",
        some "user-1", "u@example.com"⟩ "req-1" false 0 (fun _ => 0) []
        ⟨fun _ => .ok ⟨"p", "b", []⟩, fun _ => .ok (), fun _ => .ok (),
          .ok (), .ok ⟨"u", 1⟩⟩ "game-1").status = 429) :=
  theme_too_short_rejected_in_route
    ⟨"platformer", "ab", "a brave astronaut explorer", "easy", some "user-1",
      "u@example.com"⟩ "req-1" false 0 (fun _ => 0) []
    ⟨fun _ => .ok ⟨"p", "b", []⟩, fun _ => .ok (), fun _ => .ok (),
      .ok (), .ok ⟨"u", 1⟩⟩ "game-1" (by decide)

/-! ## Claim C9: cache round-trip, and the hash-collision caveat -/

theorem stringify_ne_empty (v : Json) : stringify v ≠ "" := by
  obtain ⟨c, cs, hc, _⟩ := strVal_cons v
  intro h
  have hlen := congrArg String.length h
  simp [stringify, String.length, hc] at hlen

/-- C9 (counterexample): the cache key is a 32-bit hash of
`template:prompt`, and distinct pairs collide: "t:Aa" and "t:BB" hash
identically, so after caching under the pair ("Aa", "t"), a read of the
never-set pair ("BB", "t") returns the colliding entry's value rather than
absent — the claim's "never set ⇒ absent" part is false at pair level. -/
theorem cache_key_collision_cx :
    gameCodeKey "Aa" "t" = gameCodeKey "BB" "t" ∧
    getCachedGameCode "BB" "t" (cacheGameCode "Aa" "t" (Json.num 1) []) =
      .ok (some (Json.num 1)) := by
  have hkey : gameCodeKey "Aa" "t" = gameCodeKey "BB" "t" := by decide
  refine ⟨hkey, ?_⟩
  have hne : stringify (Json.num 1) ≠ "" := stringify_ne_empty _
  rw [getCachedGameCode, cacheGameCode]
  rw [show alookup (gameCodeKey "BB" "t")
      [(gameCodeKey "Aa" "t", stringify (Json.num 1))] =
      some (stringify (Json.num 1)) from by rw [hkey, alookup, if_pos rfl]]
  simp [hne, parseJson_stringify]

/-- C9 (amended): `cacheGameCode(prompt, template, v)` followed immediately
by `getCachedGameCode(prompt, template)` returns a value deep-equal to `v`
(the `JSON.stringify`/`JSON.parse` round-trip is the identity on the
modelled JSON domain), and `getCachedGameCode` returns `null` — not an
error — whenever the derived cache key holds no entry; distinct
(prompt, template) pairs may share a key under the 32-bit hash, in which
case a never-set pair returns the colliding pair's value (see the
counterexample). -/
theorem cache_roundtrip_and_miss :
    (∀ (v : Json) (prompt template : String) (s : CacheState),
      getCachedGameCode prompt template (cacheGameCode prompt template v s) =
        .ok (some v)) ∧
    (∀ (prompt template : String) (s : CacheState),
      alookup (gameCodeKey prompt template) s = none →
      getCachedGameCode prompt template s = .ok none) := by
  constructor
  · intro v prompt template s
    have hne : stringify v ≠ "" := stringify_ne_empty v
    rw [getCachedGameCode, cacheGameCode]
    rw [show alookup (gameCodeKey prompt template)
        ((gameCodeKey prompt template, stringify v) :: s) =
        some (stringify v) from by rw [alookup, if_pos rfl]]
    simp [hne, parseJson_stringify]
  · intro prompt template s h
    rw [getCachedGameCode, h]

theorem cache_roundtrip_and_miss_witness :
    getCachedGameCode "a ninja platformer" "platformer"
      (cacheGameCode "a ninja platformer" "platformer"
        (Json.obj [("title".toList, Json.str "Ninja Run".toList),
          ("score".toList, Json.num 0)]) []) =
      .ok (some (Json.obj [("title".toList, Json.str "Ninja Run".toList),
        ("score".toList, Json.num 0)])) ∧
    getCachedGameCode "a ninja platformer" "platformer" [] = .ok none :=
  ⟨cache_roundtrip_and_miss.1
      (Json.obj [("title".toList, Json.str "Ninja Run".toList),
        ("score".toList, Json.num 0)]) "a ninja platformer" "platformer" [],
   cache_roundtrip_and_miss.2 "a ninja platformer" "platformer" [] rfl⟩

end GameGen
